import Mathlib

/-!
Verification of the core time-series logic of the commodity-price-visualizer
repository: date normalization, the three-source series merge
(`fetchFreshData`'s combine step in `src/lib/redux/slices/commoditySlice.ts`),
the range filter, the index transform, the rolling Pearson correlation and the
change detector (all in `src/components/LMEDataFetcherRedux.tsx`).

Modelling conventions:
- JavaScript numbers are modelled as `JsNum`: either `nan` (the result of a
  failed `parseFloat`, or of arithmetic on `NaN`) or `val q` with `q : ℚ`
  (exact arithmetic; the claims under study concern structural and guard
  behaviour, not floating-point rounding).
- A missing object field (`undefined`) is modelled as `none : Option JsNum`,
  distinct from `some JsNum.nan`.
- JavaScript string operations (`includes`, `split`, `<`) are modelled by
  structural recursion over the string's character list, which agrees with
  JavaScript's code-unit semantics on the ASCII data handled here.
- `new Date(s).getTime()` is modelled by `jsDateValue : String → Option ℤ`,
  implementing the ECMA-262 Date Time String Format in full (date-only
  `YYYY`/`YYYY-MM`/`YYYY-MM-DD` forms including expanded six-digit years,
  and date-time forms `...THH:mm[:ss[.fff]]` with an optional `Z`/`±HH:mm`
  offset), mapped to milliseconds since the Unix epoch; a non-conforming
  string is `none`, modelling an Invalid Date (`getTime()` = `NaN`, so
  every `>=` comparison against it is false).  Two modelling choices:
  implementation-specific fallback parsing of non-conforming strings,
  which ECMA-262 leaves explicitly unspecified, is modelled as Invalid;
  and the host time zone, which only affects date-time forms without an
  explicit offset, is modelled as UTC (offset 0).
-/

/-- A JavaScript number as used by the merge/statistics code: either `NaN`
or a finite value (modelled exactly as a rational). -/
inductive JsNum where
  | nan : JsNum
  | val (q : ℚ) : JsNum
deriving DecidableEq

/-- A row of the aligned table (`ChartDataPoint` in `commoditySlice.ts`):
a date string plus one optional numeric field per commodity. -/
structure ChartDataPoint where
  date : String
  copper : Option JsNum := none
  zinc : Option JsNum := none
  oil : Option JsNum := none
deriving DecidableEq

/-- A raw upstream point (`{date, value}` entries of each source's `data`
array). Either field may be absent (`undefined`); values arrive as strings. -/
structure RawPoint where
  date : Option String := none
  value : Option String := none
deriving DecidableEq

/-- The three commodities. -/
inductive Commodity where
  | copper : Commodity
  | zinc : Commodity
  | oil : Commodity
deriving DecidableEq

/-- Field selector on aligned rows. -/
def fieldOf : Commodity → ChartDataPoint → Option JsNum
  | .copper, r => r.copper
  | .zinc, r => r.zinc
  | .oil, r => r.oil

/-- Set the field of one commodity on an aligned row. -/
def setField : Commodity → ChartDataPoint → Option JsNum → ChartDataPoint
  | .copper, r, v => { r with copper := v }
  | .zinc, r, v => { r with zinc := v }
  | .oil, r, v => { r with oil := v }

/-- JavaScript truthiness of an optional string: `undefined` and `""` are
falsy, every other string is truthy. -/
def truthyStr : Option String → Bool
  | none => false
  | some s => !(s = "")

/-- The guard `item.date && item.value` applied to a raw point. -/
def pointOk (p : RawPoint) : Bool := truthyStr p.date && truthyStr p.value

/-- Decimal digit test on a character (ASCII `0`–`9`), as used by
`parseFloat` and by ISO date parsing. -/
def isDigitChar (c : Char) : Bool := decide (48 ≤ c.toNat) && decide (c.toNat ≤ 57)

/-- Numeric value of a digit character. -/
def charVal (c : Char) : ℕ := c.toNat - 48

/-- Value of a digit string read in base 10. -/
def digitsVal (ds : List Char) : ℕ := ds.foldl (fun a c => a * 10 + charVal c) 0

/-- Model of JavaScript `parseFloat`: skip leading whitespace, read an
optional sign, a longest prefix of the form `digits[.digits][(e|E)[sign]digits]`,
and return `NaN` when no digits are found.  (The special literal `Infinity`
is not modelled; it does not occur in this system's data.) -/
def jsParseFloat (s : String) : JsNum :=
  let cs0 := s.data.dropWhile (fun c => c == ' ' || c == '\t' || c == '\n' || c == '\r')
  let signed : Bool × List Char :=
    match cs0 with
    | '-' :: rest => (true, rest)
    | '+' :: rest => (false, rest)
    | _ => (false, cs0)
  let neg := signed.1
  let cs1 := signed.2
  let intDigits := cs1.takeWhile isDigitChar
  let cs2 := cs1.drop intDigits.length
  let fraction : List Char × List Char :=
    match cs2 with
    | '.' :: rest => (rest.takeWhile isDigitChar, rest.drop (rest.takeWhile isDigitChar).length)
    | _ => ([], cs2)
  let fracDigits := fraction.1
  let cs3 := fraction.2
  if intDigits = [] ∧ fracDigits = [] then JsNum.nan
  else
    let mant : ℚ :=
      if fracDigits = [] then (digitsVal intDigits : ℚ)
      else (digitsVal intDigits : ℚ) + (digitsVal fracDigits : ℚ) / (10 : ℚ) ^ fracDigits.length
    let mant2 : ℚ :=
      match cs3 with
      | e :: rest =>
        if e == 'e' || e == 'E' then
          let esigned : Bool × List Char :=
            match rest with
            | '-' :: r => (true, r)
            | '+' :: r => (false, r)
            | _ => (false, rest)
          let eDigits := esigned.2.takeWhile isDigitChar
          if eDigits = [] then mant
          else if esigned.1 then mant / (10 : ℚ) ^ digitsVal eDigits
          else mant * (10 : ℚ) ^ digitsVal eDigits
        else mant
      | [] => mant
    JsNum.val (if neg then -mant2 else mant2)

/-- Model of JavaScript `dateStr.includes('/')`. -/
def includesSlash (s : String) : Bool := s.data.any (fun c => c == '/')

/-- Model of JavaScript `String.prototype.split('/')` on the character list. -/
def splitSlash : List Char → List (List Char)
  | [] => [[]]
  | c :: rest =>
    if c = '/' then [] :: splitSlash rest
    else
      match splitSlash rest with
      | [] => [[c]]
      | p :: ps => (c :: p) :: ps

/-- The i-th part of a split, or the characters of `"undefined"` when the
part is missing — JavaScript template interpolation renders a missing
destructured component as the string `undefined`. -/
def partOrUndefined (ps : List (List Char)) (i : ℕ) : List Char :=
  (ps[i]?).getD "undefined".data

/-- The date normalizer of `fetchFreshData` (`commoditySlice.ts` lines
50–59): empty string maps to empty string; a string containing `/` is read
as `DD/MM/YYYY` and re-emitted as `YYYY-MM-DD`; anything else passes through
unchanged. -/
def normalizeDate (dateStr : String) : String :=
  if dateStr = "" then ""
  else if includesSlash dateStr then
    let parts := splitSlash dateStr.data
    String.mk (partOrUndefined parts 2 ++ '-' :: partOrUndefined parts 1 ++ '-' :: partOrUndefined parts 0)
  else dateStr

/-- Whether a year is a leap year (Gregorian rule, as used by the ISO date
validation of the JavaScript `Date` parser). -/
def isLeapYear (y : ℤ) : Bool := (y % 4 = 0 && !(y % 100 = 0)) || y % 400 = 0

/-- Days in a month, for ISO date validation. -/
def daysInMonth (y : ℤ) (m : ℕ) : ℕ :=
  if m = 2 then (if isLeapYear y then 29 else 28)
  else if m = 4 ∨ m = 6 ∨ m = 9 ∨ m = 11 then 30
  else 31

/-- Days since the Unix epoch of a civil date (proleptic Gregorian),
the standard era-based algorithm used by date libraries. -/
def daysFromCivil (y : ℤ) (m d : ℕ) : ℤ :=
  let y2 : ℤ := if m ≤ 2 then y - 1 else y
  let era : ℤ := Int.fdiv y2 400
  let yoe : ℤ := y2 - era * 400
  let mp : ℕ := if 2 < m then m - 3 else m + 9
  let doy : ℤ := (((153 * mp + 2) / 5 : ℕ) : ℤ) + (d : ℤ) - 1
  let doe : ℤ := yoe * 365 + Int.fdiv yoe 4 - Int.fdiv yoe 100 + doy
  era * 146097 + doe - 719468

/-- The year of an ES date string: four digits, or an expanded
six-digit year with a mandatory sign (`-000000` is invalid per ECMA-262). -/
def parseYear : List Char → Option (ℤ × List Char)
  | '+' :: a :: b :: c :: d :: e :: f :: rest =>
    if isDigitChar a && isDigitChar b && isDigitChar c && isDigitChar d
        && isDigitChar e && isDigitChar f then
      some (((digitsVal [a, b, c, d, e, f] : ℕ) : ℤ), rest)
    else none
  | '-' :: a :: b :: c :: d :: e :: f :: rest =>
    if (isDigitChar a && isDigitChar b && isDigitChar c && isDigitChar d
        && isDigitChar e && isDigitChar f) && !(digitsVal [a, b, c, d, e, f] = 0) then
      some (-((digitsVal [a, b, c, d, e, f] : ℕ) : ℤ), rest)
    else none
  | a :: b :: c :: d :: rest =>
    if isDigitChar a && isDigitChar b && isDigitChar c && isDigitChar d then
      some (((digitsVal [a, b, c, d] : ℕ) : ℤ), rest)
    else none
  | _ => none

/-- A mandatory two-digit field. -/
def parse2dig : List Char → Option (ℕ × List Char)
  | a :: b :: rest =>
    if isDigitChar a && isDigitChar b then some (charVal a * 10 + charVal b, rest) else none
  | _ => none

/-- The fractional-seconds digits after the `.`: at least one digit,
interpreted to millisecond precision (further digits truncated). -/
def parseFracMs (cs : List Char) : Option (ℕ × List Char) :=
  let ds := cs.takeWhile isDigitChar
  if ds = [] then none
  else some (digitsVal (ds.take 3) * 10 ^ (3 - min ds.length 3), cs.drop ds.length)

/-- The time-zone offset suffix, in minutes east of UTC: absent (a
date-time without offset is host-local time, modelled as UTC), `Z`, or
`±HH:mm`. -/
def parseOffset : List Char → Option ℤ
  | [] => some 0
  | ['Z'] => some 0
  | '+' :: a :: b :: ':' :: c :: d :: [] =>
    if (isDigitChar a && isDigitChar b && isDigitChar c && isDigitChar d)
        && charVal a * 10 + charVal b ≤ 23 && charVal c * 10 + charVal d ≤ 59 then
      some (((charVal a * 10 + charVal b) * 60 + (charVal c * 10 + charVal d) : ℕ) : ℤ)
    else none
  | '-' :: a :: b :: ':' :: c :: d :: [] =>
    if (isDigitChar a && isDigitChar b && isDigitChar c && isDigitChar d)
        && charVal a * 10 + charVal b ≤ 23 && charVal c * 10 + charVal d ≤ 59 then
      some (-(((charVal a * 10 + charVal b) * 60 + (charVal c * 10 + charVal d) : ℕ) : ℤ))
    else none
  | _ => none

/-- The time-of-day part after `T`: `HH:mm`, optional `:ss`, optional
fraction, optional offset; hours up to 23, or 24:00 exactly.  Yields the
milliseconds within the day and the offset in minutes. -/
def parseTime (cs : List Char) : Option (ℕ × ℤ) :=
  match parse2dig cs with
  | none => none
  | some (hh, rest0) =>
    match rest0 with
    | ':' :: rest1 =>
      match parse2dig rest1 with
      | none => none
      | some (mi, rest2) =>
        let seconds : Option (ℕ × List Char) :=
          match rest2 with
          | ':' :: rest3 =>
            match parse2dig rest3 with
            | none => none
            | some (ss, rest4) => some (ss, rest4)
          | _ => some (0, rest2)
        match seconds with
        | none => none
        | some (ss, rest4) =>
          let frac : Option (ℕ × List Char) :=
            match rest4 with
            | '.' :: rest5 => parseFracMs rest5
            | _ => some (0, rest4)
          match frac with
          | none => none
          | some (ms, rest6) =>
            match parseOffset rest6 with
            | none => none
            | some off =>
              if (hh ≤ 23 || (hh = 24 && mi = 0 && ss = 0 && ms = 0)) && mi ≤ 59 && ss ≤ 59 then
                some (hh * 3600000 + mi * 60000 + ss * 1000 + ms, off)
              else none
    | _ => none

/-- Model of `new Date(s).getTime()`: the ECMA-262 Date Time String Format,
as milliseconds since the Unix epoch (`none` = Invalid Date).  A date-only
form is UTC midnight; a date-time form without offset is host-local time,
with the host modelled as UTC. -/
def jsDateValue (s : String) : Option ℤ :=
  match parseYear s.data with
  | none => none
  | some (y, rest1) =>
    match rest1 with
    | [] => some (daysFromCivil y 1 1 * 86400000)
    | 'T' :: trest =>
      match parseTime trest with
      | some (msDay, off) => some (daysFromCivil y 1 1 * 86400000 + (msDay : ℤ) - off * 60000)
      | none => none
    | '-' :: mrest =>
      match parse2dig mrest with
      | none => none
      | some (mo, rest2) =>
        if 1 ≤ mo && mo ≤ 12 then
          match rest2 with
          | [] => some (daysFromCivil y mo 1 * 86400000)
          | 'T' :: trest =>
            match parseTime trest with
            | some (msDay, off) => some (daysFromCivil y mo 1 * 86400000 + (msDay : ℤ) - off * 60000)
            | none => none
          | '-' :: drest =>
            match parse2dig drest with
            | none => none
            | some (dy, rest3) =>
              if 1 ≤ dy && dy ≤ daysInMonth y mo then
                match rest3 with
                | [] => some (daysFromCivil y mo dy * 86400000)
                | 'T' :: trest =>
                  match parseTime trest with
                  | some (msDay, off) =>
                    some (daysFromCivil y mo dy * 86400000 + (msDay : ℤ) - off * 60000)
                  | none => none
                | _ => none
              else none
          | _ => none
        else none
    | _ => none

/-- Association-list model of the JavaScript `Map<string, ChartDataPoint>`
used by the combine step: `set` updates an existing key in place (keeping
its position) or appends a new binding at the end, matching insertion-order
semantics. -/
def mapSet : List (String × ChartDataPoint) → String → ChartDataPoint → List (String × ChartDataPoint)
  | [], k, v => [(k, v)]
  | p :: rest, k, v => if p.1 = k then (k, v) :: rest else p :: mapSet rest k v

/-- Model of `Map.get`: the binding of the key, if present. -/
def mapGet : List (String × ChartDataPoint) → String → Option ChartDataPoint
  | [], _ => none
  | p :: rest, k => if p.1 = k then some p.2 else mapGet rest k

/-- One `forEach` body of the combine step, abstracted over how the row for
the point's normalized date is produced from the existing row (if any):
skip the point unless both `date` and `value` are truthy, otherwise store
the updated row under the normalized date. -/
def genStep (upd : String → RawPoint → Option ChartDataPoint → ChartDataPoint)
    (m : List (String × ChartDataPoint)) (item : RawPoint) : List (String × ChartDataPoint) :=
  if pointOk item then
    let date := normalizeDate (item.date.getD "")
    mapSet m date (upd date item (mapGet m date))
  else m

/-- The copper pass: `dataMap.set(date, { date, copper: parseFloat(item.value) })`
— the stored row is built fresh, ignoring any existing row. -/
def copperUpd (date : String) (item : RawPoint) (_existing : Option ChartDataPoint) : ChartDataPoint :=
  { date := date, copper := some (jsParseFloat (item.value.getD "")) }

/-- The zinc pass: fetch the existing row (or a fresh `{date}` row) and set
its `zinc` field. -/
def zincUpd (date : String) (item : RawPoint) (existing : Option ChartDataPoint) : ChartDataPoint :=
  { existing.getD { date := date } with zinc := some (jsParseFloat (item.value.getD "")) }

/-- The oil pass: fetch the existing row (or a fresh `{date}` row) and set
its `oil` field. -/
def oilUpd (date : String) (item : RawPoint) (existing : Option ChartDataPoint) : ChartDataPoint :=
  { existing.getD { date := date } with oil := some (jsParseFloat (item.value.getD "")) }

/-- The populated date map after the three `forEach` passes (copper, then
zinc, then oil) of `fetchFreshData`'s combine step. -/
def buildMap (copperData zincData oilData : List RawPoint) : List (String × ChartDataPoint) :=
  (oilData.foldl (genStep oilUpd)
    (zincData.foldl (genStep zincUpd)
      (copperData.foldl (genStep copperUpd) [])))

/-- The row filter `new Date(item.date) >= new Date("2023-01-01")`: false
whenever the row's date is an Invalid Date (`NaN` comparisons are false). -/
def inSeriesRange (item : ChartDataPoint) : Bool :=
  match jsDateValue item.date, jsDateValue "2023-01-01" with
  | some a, some b => decide (b ≤ a)
  | _, _ => false

/-- The sort comparator `(a, b) => new Date(a.date).getTime() - new Date(b.date).getTime()`
as a `≤` test on date keys.  It is only applied after the series-range
filter, where every date key is valid, so the `getD 0` default is inert. -/
def dateLe (a b : ChartDataPoint) : Bool :=
  decide ((jsDateValue a.date).getD 0 ≤ (jsDateValue b.date).getD 0)

/-- The full combine step of `fetchFreshData` (`commoditySlice.ts` lines
62–94): populate the date map from the three sources, take its values,
drop rows dated before 2023-01-01, and sort ascending by date (a stable
sort, as ECMAScript `Array.prototype.sort` is). -/
def fetchFreshCombine (copperData zincData oilData : List RawPoint) : List ChartDataPoint :=
  (((buildMap copperData zincData oilData).map Prod.snd).filter inSeriesRange).mergeSort dateLe

example : normalizeDate "04/02/2026" = "2026-02-04" := by decide
example : normalizeDate "2026-02-04" = "2026-02-04" := by decide
example : normalizeDate "a/b" = "undefined-b-a" := by decide
example : jsParseFloat "100" = JsNum.val 100 := by decide
example : jsParseFloat "abc" = JsNum.nan := by decide
example : jsDateValue "2023-01-01" = some 1672531200000 := by decide
example : jsDateValue "2023-02-29" = none := by decide
example : (jsDateValue "2024-02-29").isSome = true := by decide
example : jsDateValue "2026-2-4" = none := by decide
example : jsDateValue "2023-01-05T00:00:00.000Z" = jsDateValue "2023-01-05" := by decide
example : jsDateValue "2022-12-31T23:00-01:00" = jsDateValue "2023-01-01" := by decide
example : jsDateValue "2023-01-05T24:00Z" = jsDateValue "2023-01-06" := by decide
example : jsDateValue "+002023-01-05" = jsDateValue "2023-01-05" := by decide
example : (((buildMap [⟨some "01/02/2026", some "100"⟩] [⟨some "2026-02-01", some "50"⟩] []).map Prod.snd).filter inSeriesRange)
    = [{ date := "2026-02-01", copper := some (JsNum.val 100), zinc := some (JsNum.val 50) }] := by decide

/-- Display mode of the chart. -/
inductive DisplayMode where
  | absolute : DisplayMode
  | indexed : DisplayMode
deriving DecidableEq

/-- A display row (`calculateChartData`'s output): the spread input row with
the possibly re-indexed commodity fields, the raw values, and the percent
changes. -/
structure DisplayRow where
  date : String
  copper : Option JsNum := none
  zinc : Option JsNum := none
  oil : Option JsNum := none
  rawCopper : Option JsNum := none
  rawZinc : Option JsNum := none
  rawOil : Option JsNum := none
  pctCopper : ℚ := 0
  pctZinc : ℚ := 0
  pctOil : ℚ := 0
deriving DecidableEq

/-- Field selector on display rows (the possibly re-indexed chart value). -/
def dispFieldOf : Commodity → DisplayRow → Option JsNum
  | .copper, r => r.copper
  | .zinc, r => r.zinc
  | .oil, r => r.oil

/-- Percent-change selector on display rows. -/
def pctOf : Commodity → DisplayRow → ℚ
  | .copper, r => r.pctCopper
  | .zinc, r => r.pctZinc
  | .oil, r => r.pctOil

/-- Raw-value selector on display rows. -/
def rawFieldOf : Commodity → DisplayRow → Option JsNum
  | .copper, r => r.rawCopper
  | .zinc, r => r.rawZinc
  | .oil, r => r.rawOil

/-- The baseline `baseitem?.copper || 1`: the first row's value unless that
value is falsy (`undefined`, `NaN` or `0`), in which case `1`. The result is
always a finite number. -/
def baseOr1 : Option JsNum → ℚ
  | some (.val q) => if q = 0 then 1 else q
  | _ => 1

/-- The percent change `item.x ? ((item.x - base) / base) * 100 : 0`: the
arithmetic runs only when the row's value is truthy (a finite nonzero
number); otherwise the falsy branch yields `0`. -/
def pctChange (v : Option JsNum) (base : ℚ) : ℚ :=
  match v with
  | some (.val q) => if q = 0 then 0 else ((q - base) / base) * 100
  | _ => 0

/-- The per-row body of `calculateChartData`'s `map` (`LMEDataFetcherRedux.tsx`
lines 109–135). -/
def calcRow (baseCopper baseZinc baseOil : ℚ) (mode : DisplayMode) (item : ChartDataPoint) : DisplayRow :=
  let copperPct := pctChange item.copper baseCopper
  let zincPct := pctChange item.zinc baseZinc
  let oilPct := pctChange item.oil baseOil
  { date := item.date
    copper := match mode with | .indexed => some (.val (100 + copperPct)) | .absolute => item.copper
    zinc := match mode with | .indexed => some (.val (100 + zincPct)) | .absolute => item.zinc
    oil := match mode with | .indexed => some (.val (100 + oilPct)) | .absolute => item.oil
    rawCopper := item.copper
    rawZinc := item.zinc
    rawOil := item.oil
    pctCopper := copperPct
    pctZinc := zincPct
    pctOil := oilPct }

/-- The index transform `calculateChartData` (`LMEDataFetcherRedux.tsx`
lines 100–136): empty input yields empty output; otherwise baselines are
taken from the first row (`|| 1` fallback) and every row is mapped. -/
def calculateChartData (data : List ChartDataPoint) (mode : DisplayMode) : List DisplayRow :=
  match data with
  | [] => []
  | baseitem :: _ =>
    data.map (calcRow (baseOr1 baseitem.copper) (baseOr1 baseitem.zinc) (baseOr1 baseitem.oil) mode)

/-- JavaScript `<` on strings (lexicographic by code unit), on character
lists. -/
def strLtb : List Char → List Char → Bool
  | [], [] => false
  | [], _ :: _ => true
  | _ :: _, [] => false
  | a :: as, b :: bs => if a < b then true else if b < a then false else strLtb as bs

/-- JavaScript `a < b` on strings. -/
def jsStrLt (a b : String) : Bool := strLtb a.data b.data

/-- JavaScript `a <= b` on strings: not `b < a`. -/
def jsStrLe (a b : String) : Bool := !(strLtb b.data a.data)

/-- The range selector driving `filteredChartData`: a custom `{from, to}`
pair of formatted dates, the `Max` preset, the `YTD` preset, or a
month-count preset (`1M`/`3M`/`6M`/`1Y`; months = 0 is the `Max` table
entry, reachable only through the generic branch). -/
inductive RangeSelector where
  | custom (dateFrom dateTo : Option String) : RangeSelector
  | maxRange : RangeSelector
  | ytd : RangeSelector
  | monthsPreset (n : ℕ) : RangeSelector
deriving DecidableEq

/-- The range filter `filteredChartData` (`LMEDataFetcherRedux.tsx` lines
409–440).  `nowYear` is the current year; `rawMonthCutoff` stands for
`new Date(now.getFullYear(), now.getMonth() - months, now.getDate()).toISOString().split("T")[0]`,
a wall-clock- and timezone-dependent string that enters the model as a
parameter — the clamp below is applied to it exactly as in the source. -/
def filteredChartData (chartData : List ChartDataPoint) (sel : RangeSelector)
    (nowYear : ℕ) (rawMonthCutoff : String) : List ChartDataPoint :=
  if chartData.length = 0 then []
  else
    match sel with
    | .custom dateFrom dateTo =>
      match dateFrom with
      | some fromStr =>
        let toStr := dateTo.getD "9999-12-31"
        chartData.filter (fun item => jsStrLe fromStr item.date && jsStrLe item.date toStr)
      | none => chartData
    | .maxRange => chartData
    | .ytd =>
      let cutoff := toString nowYear ++ "-01-01"
      chartData.filter (fun item => jsStrLe cutoff item.date)
    | .monthsPreset n =>
      let cutoff :=
        if n = 0 then "2023-01-01"
        else if jsStrLt rawMonthCutoff "2023-01-01" then "2023-01-01" else rawMonthCutoff
      chartData.filter (fun item => jsStrLe cutoff item.date)

/-- NaN-propagating addition on JavaScript numbers. -/
def jsAdd : JsNum → JsNum → JsNum
  | .val p, .val q => .val (p + q)
  | _, _ => .nan

/-- NaN-propagating subtraction on JavaScript numbers. -/
def jsSub : JsNum → JsNum → JsNum
  | .val p, .val q => .val (p - q)
  | _, _ => .nan

/-- NaN-propagating multiplication on JavaScript numbers. -/
def jsMul : JsNum → JsNum → JsNum
  | .val p, .val q => .val (p * q)
  | _, _ => .nan

/-- Sum of a list of JavaScript numbers (`reduce((a, b) => a + b, 0)`). -/
def jsSum (l : List JsNum) : JsNum := l.foldl jsAdd (.val 0)

/-- The last `n` elements of a list (`Array.prototype.slice(-n)`). -/
def lastN (n : ℕ) (l : List α) : List α := l.drop (l.length - n)

/-- The qualifying paired rows of `calculateCorrelation`: rows where both
keys are non-null (`!= null` lets `NaN` through, it only rejects a missing
field), restricted to the trailing 30. -/
def corrPairs (data : List ChartDataPoint) (key1 key2 : Commodity) : List ChartDataPoint :=
  lastN 30 (data.filter (fun d => (fieldOf key1 d).isSome && (fieldOf key2 d).isSome))

/-- The x-series of the correlation window. -/
def corrX (data : List ChartDataPoint) (key1 key2 : Commodity) : List JsNum :=
  (corrPairs data key1 key2).map (fun d => (fieldOf key1 d).getD .nan)

/-- The y-series of the correlation window. -/
def corrY (data : List ChartDataPoint) (key1 key2 : Commodity) : List JsNum :=
  (corrPairs data key1 key2).map (fun d => (fieldOf key2 d).getD .nan)

/-- The Pearson numerator `n*Σxy - Σx*Σy` of `calculateCorrelation`. -/
def corrNumerator (data : List ChartDataPoint) (key1 key2 : Commodity) : JsNum :=
  let x := corrX data key1 key2
  let y := corrY data key1 key2
  let n : JsNum := .val (x.length : ℚ)
  let sumXY := (x.zip y).foldl (fun acc p => jsAdd acc (jsMul p.1 p.2)) (.val 0)
  jsSub (jsMul n sumXY) (jsMul (jsSum x) (jsSum y))

/-- The radicand `(n*Σx² - (Σx)²) * (n*Σy² - (Σy)²)` of the Pearson
denominator. -/
def corrDenomSq (data : List ChartDataPoint) (key1 key2 : Commodity) : JsNum :=
  let x := corrX data key1 key2
  let y := corrY data key1 key2
  let n : JsNum := .val (x.length : ℚ)
  let sumX2 := (x.map (fun v => jsMul v v)).foldl jsAdd (.val 0)
  let sumY2 := (y.map (fun v => jsMul v v)).foldl jsAdd (.val 0)
  jsMul (jsSub (jsMul n sumX2) (jsMul (jsSum x) (jsSum x)))
        (jsSub (jsMul n sumY2) (jsMul (jsSum y) (jsSum y)))

/-- `Math.sqrt` applied to a JavaScript number, as a real (`none` = `NaN`:
the input was `NaN` or negative). -/
noncomputable def jsSqrtReal : JsNum → Option ℝ
  | .nan => none
  | .val q => if q < 0 then none else some (Real.sqrt (q : ℝ))

/-- The Pearson denominator `Math.sqrt((n*Σx² - (Σx)²)(n*Σy² - (Σy)²))`. -/
noncomputable def corrDenominator (data : List ChartDataPoint) (key1 key2 : Commodity) : Option ℝ :=
  jsSqrtReal (corrDenomSq data key1 key2)

/-- The rolling-correlation function `calculateCorrelation`
(`LMEDataFetcherRedux.tsx` lines 140–158), with `none` modelling a `NaN`
result.  Fewer than 5 qualifying paired rows: `0`.  Denominator exactly `0`:
`0`.  Otherwise `numerator / denominator` with JavaScript `NaN` propagation. -/
noncomputable def calculateCorrelation (data : List ChartDataPoint) (key1 key2 : Commodity) : Option ℝ :=
  if (corrPairs data key1 key2).length < 5 then some 0
  else if corrDenominator data key1 key2 = some 0 then some 0
  else
    match corrNumerator data key1 key2, corrDenominator data key1 key2 with
    | .val p, some r => some ((p : ℝ) / r)
    | _, _ => none

/-- JavaScript strict inequality `!==` on `number | undefined` fields:
`undefined` equals only `undefined`; `NaN` is unequal to everything,
itself included. -/
def jsStrictNe : Option JsNum → Option JsNum → Bool
  | none, none => false
  | some (.val p), some (.val q) => !(p = q)
  | _, _ => true

/-- The update test of `handleFetchFresh`:
`p.copper !== d.copper || p.zinc !== d.zinc || p.oil !== d.oil`. -/
def rowChanged (p d : ChartDataPoint) : Bool :=
  jsStrictNe p.copper d.copper || jsStrictNe p.zinc d.zinc || jsStrictNe p.oil d.oil

/-- Rendering of an optional numeric field inside a template string:
`undefined` renders as `undefined`, `NaN` as `NaN`.  For finite values the
rational is printed directly; JavaScript's shortest-round-trip decimal
notation for floats is not reproduced, so detail-line text for non-integral
values is approximate (no property proved here constrains it). -/
def numStr : Option JsNum → String
  | none => "undefined"
  | some .nan => "NaN"
  | some (.val q) => toString q

/-- The addition-count header line. -/
def addedHeader (n : ℕ) : String := "Added " ++ toString n ++ " new data point(s)."

/-- An addition detail line. -/
def newDetailLine (d : ChartDataPoint) : String :=
  "New: " ++ d.date ++ " | Cu: $" ++ numStr d.copper ++ " | Zn: $" ++ numStr d.zinc
    ++ " | Oil: $" ++ numStr d.oil

/-- The addition truncation note. -/
def moreNote (n : ℕ) : String := "...and " ++ toString n ++ " more."

/-- The update-count header line. -/
def updatedHeader (n : ℕ) : String := "Updated " ++ toString n ++ " existing data point(s)."

/-- An update detail line. -/
def updDetailLine (d : ChartDataPoint) : String := "Update " ++ d.date ++ ": Values refreshed."

/-- The update truncation note. -/
def moreUpdatesNote (n : ℕ) : String := "...and " ++ toString n ++ " more updates."

/-- The summary string persisted to the change log:
`Data Update: ${newEntries.length} new, ${updatesCount} updated`. -/
def changeSummary (nNew nUpd : ℕ) : String :=
  "Data Update: " ++ toString nNew ++ " new, " ++ toString nUpd ++ " updated"

/-- The new entries: rows of the fresh table whose date is not among the
previous table's dates (`!prevDates.has(d.date)`). -/
def detectNewEntries (prevData newData : List ChartDataPoint) : List ChartDataPoint :=
  newData.filter (fun d => !(prevData.any (fun p => p.date = d.date)))

/-- The previous-table lookup `new Map(prevData.map(d => [d.date, d]))`. -/
def buildPrevMap (prevData : List ChartDataPoint) : List (String × ChartDataPoint) :=
  prevData.foldl (fun m d => mapSet m d.date d) []

/-- One iteration of the update-detection loop: on a date also present in
the previous table whose fields differ, bump the count and (while the count
is at most 3) append a detail line. -/
def updateStep (prevMap : List (String × ChartDataPoint)) (acc : ℕ × List String)
    (d : ChartDataPoint) : ℕ × List String :=
  match mapGet prevMap d.date with
  | some p =>
    if rowChanged p d then
      (acc.1 + 1, if acc.1 + 1 ≤ 3 then acc.2 ++ [updDetailLine d] else acc.2)
    else acc
  | none => acc

/-- The change detector embedded in `handleFetchFresh`
(`LMEDataFetcherRedux.tsx` lines 497–562): the ordered change lines, the
number of additions and the number of updates (scanning the fresh table in
reverse for updates). -/
def detectChanges (prevData newData : List ChartDataPoint) : List String × ℕ × ℕ :=
  let newEntries := detectNewEntries prevData newData
  let addLines : List String :=
    if 0 < newEntries.length then
      addedHeader newEntries.length
        :: ((newEntries.take 3).map newDetailLine
          ++ (if 3 < newEntries.length then [moreNote (newEntries.length - 3)] else []))
    else []
  let scan := (newData.reverse).foldl (updateStep (buildPrevMap prevData)) (0, [])
  let updLines : List String :=
    if 0 < scan.1 then
      updatedHeader scan.1 :: (scan.2 ++ (if 3 < scan.1 then [moreUpdatesNote (scan.1 - 3)] else []))
    else []
  (addLines ++ updLines, newEntries.length, scan.1)

example :
    (detectChanges [{ date := "2026-02-01", copper := some (.val 100) }]
      [{ date := "2026-02-01", copper := some (.val 100) },
       { date := "2026-02-02", copper := some (.val 101) }]).2 = (1, 0) := by decide

example :
    (detectChanges [{ date := "2026-02-01", copper := some (.val 100) }]
      [{ date := "2026-02-01", copper := some (.val 105) }]).2 = (0, 1) := by decide

example : changeSummary 1 0 = "Data Update: 1 new, 0 updated" := by decide

/-- Percent change of a truthy value against its own `|| 1` baseline is 0. -/
theorem pctChange_baseOr1 (v : Option JsNum) : pctChange v (baseOr1 v) = 0 := by
  match v with
  | none => rfl
  | some .nan => rfl
  | some (.val q) =>
    by_cases hq : q = 0
    · simp [pctChange, hq]
    · simp [pctChange, baseOr1, hq]

/-- An output element of `calculateChartData` at index `i` is the mapped
input element at index `i`. -/
theorem calculateChartData_getElem? (b : ChartDataPoint) (rest : List ChartDataPoint)
    (mode : DisplayMode) (i : ℕ) :
    (calculateChartData (b :: rest) mode)[i]? =
      ((b :: rest)[i]?).map (calcRow (baseOr1 b.copper) (baseOr1 b.zinc) (baseOr1 b.oil) mode) := by
  simp only [calculateChartData]
  exact List.getElem?_map _ _ _

/-- C4: The date normalizer is total (a Lean function), passes every
slash-free string through verbatim, rewrites every slash-containing string
from `DD/MM/YYYY` order to `YYYY-MM-DD` order via its split parts, and
satisfies the two concrete round-trip examples. -/
theorem normalizeDate_spec :
    (∀ s : String, includesSlash s = false → normalizeDate s = s)
    ∧ (∀ s : String, includesSlash s = true →
        normalizeDate s = String.mk (partOrUndefined (splitSlash s.data) 2 ++ '-' ::
          partOrUndefined (splitSlash s.data) 1 ++ '-' :: partOrUndefined (splitSlash s.data) 0))
    ∧ normalizeDate "04/02/2026" = "2026-02-04"
    ∧ normalizeDate "2026-02-04" = "2026-02-04" := by
  refine ⟨?_, ?_, by decide, by decide⟩
  · intro s h
    by_cases hs : s = ""
    · rw [hs]; rfl
    · simp [normalizeDate, hs, h]
  · intro s h
    have hs : s ≠ "" := by
      intro he
      rw [he] at h
      exact absurd h (by decide)
    simp [normalizeDate, hs, h]

/-- Witness for C4 at concrete inputs: a slash-free string passes through,
a two-part slash string is reordered with the missing year rendered as
`undefined`. -/
theorem normalizeDate_spec_witness :
    normalizeDate "hello" = "hello" ∧ normalizeDate "1/2" = "undefined-2-1" :=
  ⟨normalizeDate_spec.1 "hello" (by decide), by
    rw [normalizeDate_spec.2.1 "1/2" (by decide)]; decide⟩

/-- C7: The correlation returns the defined sentinel `0` (in particular,
never `NaN`, which `none` models, and never an unguarded division) whenever
fewer than 5 qualifying paired rows remain, or the Pearson denominator —
equivalently its radicand — is exactly zero. -/
theorem calculateCorrelation_sentinel (data : List ChartDataPoint) (key1 key2 : Commodity)
    (h : (corrPairs data key1 key2).length < 5 ∨ corrDenomSq data key1 key2 = JsNum.val 0
      ∨ corrDenominator data key1 key2 = some 0) :
    calculateCorrelation data key1 key2 = some 0 := by
  have hzero : corrDenomSq data key1 key2 = JsNum.val 0 →
      corrDenominator data key1 key2 = some 0 := by
    intro h2
    simp [corrDenominator, h2, jsSqrtReal, Real.sqrt_zero]
  unfold calculateCorrelation
  rcases h with h | h | h
  · rw [if_pos h]
  · by_cases h5 : (corrPairs data key1 key2).length < 5
    · rw [if_pos h5]
    · rw [if_neg h5, if_pos (hzero h)]
  · by_cases h5 : (corrPairs data key1 key2).length < 5
    · rw [if_pos h5]
    · rw [if_neg h5, if_pos h]

/-- Witness for C7: on an empty table no paired rows qualify, so the
sentinel is returned. -/
theorem calculateCorrelation_sentinel_witness :
    calculateCorrelation [] Commodity.copper Commodity.oil = some 0 :=
  calculateCorrelation_sentinel [] Commodity.copper Commodity.oil (Or.inl (by decide))

/-- C6: In indexed mode, if the window's first row carries a finite nonzero
value for a commodity, that row's indexed value for the commodity is exactly
100 and its percent change exactly 0; and on a single-row window the percent
change is 0 for every commodity in either mode. -/
theorem calculateChartData_baseline :
    (∀ (c : Commodity) (data : List ChartDataPoint) (item : ChartDataPoint) (v : ℚ),
      data[0]? = some item → fieldOf c item = some (JsNum.val v) → v ≠ 0 →
      ∃ out, (calculateChartData data .indexed)[0]? = some out
        ∧ dispFieldOf c out = some (JsNum.val 100) ∧ pctOf c out = 0)
    ∧ (∀ (c : Commodity) (item : ChartDataPoint) (mode : DisplayMode),
      ∃ out, (calculateChartData [item] mode)[0]? = some out ∧ pctOf c out = 0) := by
  constructor
  · intro c data item v h0 hv hv0
    match data with
    | [] => simp at h0
    | b :: rest =>
      have hb : b = item := by simpa using h0
      subst hb
      refine ⟨calcRow (baseOr1 b.copper) (baseOr1 b.zinc) (baseOr1 b.oil) .indexed b,
        by rw [calculateChartData_getElem?]; simp, ?_⟩
      have hpct : pctChange (fieldOf c b) (baseOr1 (fieldOf c b)) = 0 := pctChange_baseOr1 _
      cases c with
      | copper =>
        rw [fieldOf] at hv hpct
        simp [calcRow, dispFieldOf, pctOf, hpct]
      | zinc =>
        rw [fieldOf] at hv hpct
        simp [calcRow, dispFieldOf, pctOf, hpct]
      | oil =>
        rw [fieldOf] at hv hpct
        simp [calcRow, dispFieldOf, pctOf, hpct]
  · intro c item mode
    refine ⟨calcRow (baseOr1 item.copper) (baseOr1 item.zinc) (baseOr1 item.oil) mode item,
      by rw [calculateChartData_getElem?]; simp, ?_⟩
    have hpct : pctChange (fieldOf c item) (baseOr1 (fieldOf c item)) = 0 := pctChange_baseOr1 _
    cases c with
    | copper => rw [fieldOf] at hpct; simpa [calcRow, pctOf] using hpct
    | zinc => rw [fieldOf] at hpct; simpa [calcRow, pctOf] using hpct
    | oil => rw [fieldOf] at hpct; simpa [calcRow, pctOf] using hpct

/-- Witness for C6: a window starting with copper = 200 is indexed to 100
with percent change 0, and a single-row window has zero oil percent change. -/
theorem calculateChartData_baseline_witness :
    (∃ out, (calculateChartData [{ date := "2026-01-02", copper := some (JsNum.val 200) }]
        DisplayMode.indexed)[0]? = some out
      ∧ dispFieldOf Commodity.copper out = some (JsNum.val 100)
      ∧ pctOf Commodity.copper out = 0)
    ∧ (∃ out, (calculateChartData [{ date := "2026-01-03", oil := some (JsNum.val 70) }]
        DisplayMode.absolute)[0]? = some out ∧ pctOf Commodity.oil out = 0) :=
  ⟨calculateChartData_baseline.1 Commodity.copper _ _ 200 rfl rfl (by decide),
   calculateChartData_baseline.2 Commodity.oil _ DisplayMode.absolute⟩

/-- C10: In indexed mode every output row carries a finite value for every
commodity; a row whose input field is absent or zero gets exactly the
baseline index 100; in absolute mode the field is passed through unchanged
(absent stays absent). -/
theorem calculateChartData_indexed_totality :
    ∀ (c : Commodity) (data : List ChartDataPoint) (i : ℕ) (item : ChartDataPoint),
      data[i]? = some item →
      (∃ out, (calculateChartData data .indexed)[i]? = some out
        ∧ (∃ q, dispFieldOf c out = some (JsNum.val q))
        ∧ ((fieldOf c item = none ∨ fieldOf c item = some (JsNum.val 0)) →
            dispFieldOf c out = some (JsNum.val 100)))
      ∧ (∃ out, (calculateChartData data .absolute)[i]? = some out
        ∧ dispFieldOf c out = fieldOf c item) := by
  intro c data i item hi
  match data with
  | [] => simp at hi
  | b :: rest =>
    have hpct0 : ∀ base : ℚ, fieldOf c item = none ∨ fieldOf c item = some (JsNum.val 0) →
        pctChange (fieldOf c item) base = 0 := by
      intro base h
      rcases h with h | h <;> simp [pctChange, h]
    constructor
    · refine ⟨calcRow (baseOr1 b.copper) (baseOr1 b.zinc) (baseOr1 b.oil) .indexed item,
        by rw [calculateChartData_getElem?, hi]; rfl, ?_, ?_⟩
      · cases c <;> exact ⟨_, rfl⟩
      · intro h
        have := hpct0 (match c with
          | .copper => baseOr1 b.copper | .zinc => baseOr1 b.zinc | .oil => baseOr1 b.oil) h
        cases c with
        | copper => simp only [fieldOf] at this; simp [calcRow, dispFieldOf, this]
        | zinc => simp only [fieldOf] at this; simp [calcRow, dispFieldOf, this]
        | oil => simp only [fieldOf] at this; simp [calcRow, dispFieldOf, this]
    · refine ⟨calcRow (baseOr1 b.copper) (baseOr1 b.zinc) (baseOr1 b.oil) .absolute item,
        by rw [calculateChartData_getElem?, hi]; rfl, ?_⟩
      cases c <;> rfl

/-- Witness for C10: a row with no zinc value gets indexed zinc 100, and
keeps zinc absent in absolute mode. -/
theorem calculateChartData_indexed_totality_witness :
    (∃ out, (calculateChartData [{ date := "2026-01-04", copper := some (JsNum.val 3) }]
        DisplayMode.indexed)[0]? = some out
      ∧ (∃ q, dispFieldOf Commodity.zinc out = some (JsNum.val q))
      ∧ ((fieldOf Commodity.zinc { date := "2026-01-04", copper := some (JsNum.val 3) } = none ∨
          fieldOf Commodity.zinc { date := "2026-01-04", copper := some (JsNum.val 3) }
            = some (JsNum.val 0)) →
          dispFieldOf Commodity.zinc out = some (JsNum.val 100)))
    ∧ (∃ out, (calculateChartData [{ date := "2026-01-04", copper := some (JsNum.val 3) }]
        DisplayMode.absolute)[0]? = some out
      ∧ dispFieldOf Commodity.zinc out
          = fieldOf Commodity.zinc { date := "2026-01-04", copper := some (JsNum.val 3) }) :=
  calculateChartData_indexed_totality Commodity.zinc _ 0 _ rfl

/-- The lexicographic string order is irreflexive-nil on the right:
nothing is below the empty character list. -/
theorem strLtb_nil_right (a : List Char) : strLtb a [] = false := by
  cases a <;> rfl

/-- Transitivity of the modelled JavaScript string order. -/
theorem strLtb_trans : ∀ {a b c : List Char},
    strLtb a b = true → strLtb b c = true → strLtb a c = true
  | [], _, _ :: _, _, _ => rfl
  | [], b, [], _, h2 => absurd h2 (by rw [strLtb_nil_right]; simp)
  | _ :: _, b, [], _, h2 => absurd h2 (by rw [strLtb_nil_right]; simp)
  | x :: as, [], c, h1, _ => absurd h1 (by rw [strLtb_nil_right]; simp)
  | x :: as, y :: bs, z :: cs, h1, h2 => by
    rw [strLtb] at h1 h2 ⊢
    by_cases hxy : x < y
    · rw [if_pos hxy] at h1
      by_cases hyz : y < z
      · rw [if_pos (lt_trans hxy hyz)]
      · by_cases hzy : z < y
        · rw [if_neg hyz, if_pos hzy] at h2
          simp at h2
        · have : y = z := le_antisymm (not_lt.mp hzy) (not_lt.mp hyz)
          rw [if_pos (this ▸ hxy)]
    · by_cases hyx : y < x
      · rw [if_neg hxy, if_pos hyx] at h1
        simp at h1
      · have hxeq : x = y := le_antisymm (not_lt.mp hyx) (not_lt.mp hxy)
        rw [if_neg hxy, if_neg hyx] at h1
        by_cases hyz : y < z
        · rw [if_pos (hxeq ▸ hyz)]
        · by_cases hzy : z < y
          · rw [if_neg hyz, if_pos hzy] at h2
            simp at h2
          · have hyeq : y = z := le_antisymm (not_lt.mp hzy) (not_lt.mp hyz)
            have hxz : ¬ x < z := by rw [hxeq, hyeq]; exact lt_irrefl z
            have hzx : ¬ z < x := by rw [hxeq, hyeq]; exact lt_irrefl z
            rw [if_neg hyz, if_neg hzy] at h2
            rw [if_neg hxz, if_neg hzx]
            exact strLtb_trans h1 h2

/-- Totality of the modelled JavaScript string order: if `a` is not below
`b` then either `b` is below `a` or they are equal. -/
theorem strLtb_not_lt : ∀ {a b : List Char},
    strLtb a b = false → strLtb b a = true ∨ a = b
  | [], [], _ => Or.inr rfl
  | [], _ :: _, h => absurd h (by rw [strLtb]; simp)
  | _ :: _, [], _ => Or.inl rfl
  | x :: as, y :: bs, h => by
    rw [strLtb] at h ⊢
    by_cases hxy : x < y
    · rw [if_pos hxy] at h
      simp at h
    · by_cases hyx : y < x
      · rw [if_pos hyx]
        exact Or.inl rfl
      · have hxeq : x = y := le_antisymm (not_lt.mp hyx) (not_lt.mp hxy)
        rw [if_neg hxy, if_neg hyx] at h
        rw [if_neg hyx, if_neg hxy]
        rcases strLtb_not_lt h with h' | h'
        · exact Or.inl h'
        · exact Or.inr (by rw [hxeq, h'])

/-- Below the modelled JavaScript string order, chained: if `r` is not
below `c` and `c` is not below `b`, then `r` is not below `b`. -/
theorem strLe_chain {r c b : List Char} (h1 : strLtb r c = false)
    (h2 : strLtb c b = false) : strLtb r b = false := by
  cases hb : strLtb r b
  · rfl
  · exfalso
    rcases strLtb_not_lt h2 with hbc | hcb
    · have := strLtb_trans hb hbc
      rw [this] at h1
      exact Bool.noConfusion h1
    · rw [← hcb] at hb
      rw [hb] at h1
      exact Bool.noConfusion h1

set_option maxRecDepth 8000 in
/-- Years 2023–3022: January 1 of that year is not before 2023-01-01. -/
theorem ytdBall0 : ∀ n, n < 1000 →
    strLtb ((toString (n + 2023) ++ "-01-01").data) ("2023-01-01".data) = false := by decide

set_option maxRecDepth 8000 in
/-- Years 3023–4022: January 1 of that year is not before 2023-01-01. -/
theorem ytdBall1 : ∀ n, n < 1000 →
    strLtb ((toString (n + 3023) ++ "-01-01").data) ("2023-01-01".data) = false := by decide

set_option maxRecDepth 8000 in
/-- Years 4023–5022: January 1 of that year is not before 2023-01-01. -/
theorem ytdBall2 : ∀ n, n < 1000 →
    strLtb ((toString (n + 4023) ++ "-01-01").data) ("2023-01-01".data) = false := by decide

set_option maxRecDepth 8000 in
/-- Years 5023–6022: January 1 of that year is not before 2023-01-01. -/
theorem ytdBall3 : ∀ n, n < 1000 →
    strLtb ((toString (n + 5023) ++ "-01-01").data) ("2023-01-01".data) = false := by decide

set_option maxRecDepth 8000 in
/-- Years 6023–7022: January 1 of that year is not before 2023-01-01. -/
theorem ytdBall4 : ∀ n, n < 1000 →
    strLtb ((toString (n + 6023) ++ "-01-01").data) ("2023-01-01".data) = false := by decide

set_option maxRecDepth 8000 in
/-- Years 7023–8022: January 1 of that year is not before 2023-01-01. -/
theorem ytdBall5 : ∀ n, n < 1000 →
    strLtb ((toString (n + 7023) ++ "-01-01").data) ("2023-01-01".data) = false := by decide

set_option maxRecDepth 8000 in
/-- Years 8023–9022: January 1 of that year is not before 2023-01-01. -/
theorem ytdBall6 : ∀ n, n < 1000 →
    strLtb ((toString (n + 8023) ++ "-01-01").data) ("2023-01-01".data) = false := by decide

set_option maxRecDepth 8000 in
/-- Years 9023–9999: January 1 of that year is not before 2023-01-01. -/
theorem ytdBall7 : ∀ n, n < 977 →
    strLtb ((toString (n + 9023) ++ "-01-01").data) ("2023-01-01".data) = false := by decide

/-- For any current year between 2023 and 9999, the YTD cutoff string
`"YYYY-01-01"` is not before `"2023-01-01"`. -/
theorem ytdCutoff_ge (n : ℕ) (h1 : 2023 ≤ n) (h2 : n ≤ 9999) :
    strLtb ((toString n ++ "-01-01").data) ("2023-01-01".data) = false := by
  by_cases c0 : n < 3023
  · have h := ytdBall0 (n - 2023) (by omega)
    rw [show n - 2023 + 2023 = n from by omega] at h
    exact h
  by_cases c1 : n < 4023
  · have h := ytdBall1 (n - 3023) (by omega)
    rw [show n - 3023 + 3023 = n from by omega] at h
    exact h
  by_cases c2 : n < 5023
  · have h := ytdBall2 (n - 4023) (by omega)
    rw [show n - 4023 + 4023 = n from by omega] at h
    exact h
  by_cases c3 : n < 6023
  · have h := ytdBall3 (n - 5023) (by omega)
    rw [show n - 5023 + 5023 = n from by omega] at h
    exact h
  by_cases c4 : n < 7023
  · have h := ytdBall4 (n - 6023) (by omega)
    rw [show n - 6023 + 6023 = n from by omega] at h
    exact h
  by_cases c5 : n < 8023
  · have h := ytdBall5 (n - 7023) (by omega)
    rw [show n - 7023 + 7023 = n from by omega] at h
    exact h
  by_cases c6 : n < 9023
  · have h := ytdBall6 (n - 8023) (by omega)
    rw [show n - 8023 + 8023 = n from by omega] at h
    exact h
  · have h := ytdBall7 (n - 9023) (by omega)
    rw [show n - 9023 + 9023 = n from by omega] at h
    exact h

/-- C5 (amended): For every month-count preset the computed cutoff is
clamped, so every row of the filtered output is dated on or after
2023-01-01; for the YTD preset the cutoff is January 1 of the current year,
so the same holds whenever the current year is between 2023 and 9999; the
`Max` preset applies no cutoff at all and returns the input table
unchanged. -/
theorem filteredChartData_cutoff :
    (∀ (chartData : List ChartDataPoint) (n nowYear : ℕ) (rawMonthCutoff : String),
      ∀ row ∈ filteredChartData chartData (.monthsPreset n) nowYear rawMonthCutoff,
        jsStrLe "2023-01-01" row.date = true)
    ∧ (∀ (chartData : List ChartDataPoint) (nowYear : ℕ) (rawMonthCutoff : String),
      2023 ≤ nowYear → nowYear ≤ 9999 →
      ∀ row ∈ filteredChartData chartData .ytd nowYear rawMonthCutoff,
        jsStrLe "2023-01-01" row.date = true)
    ∧ (∀ (chartData : List ChartDataPoint) (nowYear : ℕ) (rawMonthCutoff : String),
      filteredChartData chartData .maxRange nowYear rawMonthCutoff = chartData) := by
  refine ⟨?_, ?_, ?_⟩
  · intro chartData n nowYear rawMonthCutoff row hrow
    unfold filteredChartData at hrow
    by_cases hlen : chartData.length = 0
    · rw [if_pos hlen] at hrow
      simp at hrow
    · rw [if_neg hlen] at hrow
      have hcond := (List.mem_filter.mp hrow).2
      unfold jsStrLe at hcond ⊢
      simp only [Bool.not_eq_true'] at hcond ⊢
      by_cases hn : n = 0
      · rw [if_pos hn] at hcond
        exact hcond
      · rw [if_neg hn] at hcond
        by_cases hclamp : jsStrLt rawMonthCutoff "2023-01-01" = true
        · rw [if_pos hclamp] at hcond
          exact hcond
        · rw [if_neg hclamp] at hcond
          have hraw : strLtb rawMonthCutoff.data "2023-01-01".data = false := by
            unfold jsStrLt at hclamp
            cases hb : strLtb rawMonthCutoff.data "2023-01-01".data
            · rfl
            · exact absurd hb hclamp
          exact strLe_chain hcond hraw
  · intro chartData nowYear rawMonthCutoff h1 h2 row hrow
    unfold filteredChartData at hrow
    by_cases hlen : chartData.length = 0
    · rw [if_pos hlen] at hrow
      simp at hrow
    · rw [if_neg hlen] at hrow
      have hcond := (List.mem_filter.mp hrow).2
      unfold jsStrLe at hcond ⊢
      simp only [Bool.not_eq_true'] at hcond ⊢
      exact strLe_chain hcond (ytdCutoff_ge nowYear h1 h2)
  · intro chartData nowYear rawMonthCutoff
    unfold filteredChartData
    by_cases hlen : chartData.length = 0
    · rw [if_pos hlen, List.length_eq_zero.mp hlen]
    · rw [if_neg hlen]

/-- Witness for C5: a surviving row under a 3-month preset with a
clamp-free raw cutoff, and a surviving row under YTD in 2026, are both
dated on or after 2023-01-01. -/
theorem filteredChartData_cutoff_witness :
    jsStrLe "2023-01-01" ({ date := "2025-08-01" } : ChartDataPoint).date = true
    ∧ jsStrLe "2023-01-01" ({ date := "2026-03-03" } : ChartDataPoint).date = true :=
  ⟨filteredChartData_cutoff.1 [{ date := "2025-08-01" }] 3 2026 "2025-05-12"
    { date := "2025-08-01" } (by decide),
   filteredChartData_cutoff.2.1 [{ date := "2026-03-03" }] 2026 "2026-05-12"
    (by decide) (by decide) { date := "2026-03-03" } (by decide)⟩

/-- Counterexample for C5 as stated: under the `Max` preset the filter
applies no cutoff, so a row dated 2020-05-05 — strictly before 2023-01-01 —
survives in the output. -/
theorem filteredChartData_max_counterexample :
    filteredChartData [{ date := "2020-05-05" }] .maxRange 2026 "2026-01-01"
      = [{ date := "2020-05-05" }]
    ∧ jsStrLt "2020-05-05" "2023-01-01" = true := by
  constructor
  · decide
  · decide

/-- The keys of a date map are pairwise distinct. -/
def KeysDistinct (m : List (String × ChartDataPoint)) : Prop :=
  m.Pairwise (fun p q => p.1 ≠ q.1)

/-- Every stored row's `date` field equals its key. -/
def DatesMatch (m : List (String × ChartDataPoint)) : Prop :=
  ∀ p ∈ m, p.2.date = p.1

/-- Looking up the key just set yields the value just set. -/
theorem mapGet_set_self (m : List (String × ChartDataPoint)) (k : String) (v : ChartDataPoint) :
    mapGet (mapSet m k v) k = some v := by
  induction m with
  | nil => simp [mapSet, mapGet]
  | cons p rest ih =>
    rw [mapSet]
    by_cases h : p.1 = k
    · rw [if_pos h, mapGet, if_pos rfl]
    · rw [if_neg h, mapGet, if_neg h]
      exact ih

/-- Setting one key leaves lookups of other keys unchanged. -/
theorem mapGet_set_ne (m : List (String × ChartDataPoint)) (k : String) (v : ChartDataPoint)
    (k2 : String) (h : k2 ≠ k) : mapGet (mapSet m k v) k2 = mapGet m k2 := by
  induction m with
  | nil => simp [mapSet, mapGet, Ne.symm h]
  | cons p rest ih =>
    rw [mapSet]
    by_cases hp : p.1 = k
    · rw [if_pos hp, mapGet, mapGet, if_neg (fun he : k = k2 => h he.symm),
        if_neg (show ¬ p.1 = k2 from fun he => h (hp.symm.trans he).symm)]
    · rw [if_neg hp, mapGet, mapGet]
      by_cases hpk : p.1 = k2
      · rw [if_pos hpk, if_pos hpk]
      · rw [if_neg hpk, if_neg hpk]
        exact ih

/-- Membership after a set: the element was already present or is the new
binding. -/
theorem mem_mapSet {q : String × ChartDataPoint} :
    ∀ {m : List (String × ChartDataPoint)} {k : String} {v : ChartDataPoint},
      q ∈ mapSet m k v → q ∈ m ∨ q = (k, v)
  | [], k, v, h => by
    rw [mapSet] at h
    exact Or.inr (by simpa using h)
  | p :: rest, k, v, h => by
    rw [mapSet] at h
    by_cases hp : p.1 = k
    · rw [if_pos hp] at h
      rcases List.mem_cons.mp h with he | hm
      · exact Or.inr he
      · exact Or.inl (List.mem_cons_of_mem p hm)
    · rw [if_neg hp] at h
      rcases List.mem_cons.mp h with he | hm
      · exact Or.inl (he ▸ List.mem_cons_self p rest)
      · rcases mem_mapSet hm with hm2 | hm2
        · exact Or.inl (List.mem_cons_of_mem p hm2)
        · exact Or.inr hm2

/-- `mapSet` preserves distinctness of keys. -/
theorem keysDistinct_mapSet {m : List (String × ChartDataPoint)} (k : String) (v : ChartDataPoint)
    (h : KeysDistinct m) : KeysDistinct (mapSet m k v) := by
  induction m with
  | nil => simp [mapSet, KeysDistinct]
  | cons p rest ih =>
    rcases List.pairwise_cons.mp h with ⟨hhead, htail⟩
    rw [mapSet]
    by_cases hp : p.1 = k
    · rw [if_pos hp]
      exact List.pairwise_cons.mpr ⟨fun q hq => hp ▸ hhead q hq, htail⟩
    · rw [if_neg hp]
      refine List.pairwise_cons.mpr ⟨?_, ih htail⟩
      intro q hq
      rcases mem_mapSet hq with hq2 | hq2
      · exact hhead q hq2
      · rw [hq2]
        exact hp

/-- `mapSet` preserves the date/key invariant when the new row's date is its
key. -/
theorem datesMatch_mapSet {m : List (String × ChartDataPoint)} {k : String} {v : ChartDataPoint}
    (h : DatesMatch m) (hv : v.date = k) : DatesMatch (mapSet m k v) := by
  intro q hq
  rcases mem_mapSet hq with hq2 | hq2
  · exact h q hq2
  · rw [hq2]
    exact hv

/-- With distinct keys, a stored binding is recovered by lookup. -/
theorem mapGet_mem {m : List (String × ChartDataPoint)} {k : String} {v : ChartDataPoint}
    (h : KeysDistinct m) (hm : (k, v) ∈ m) : mapGet m k = some v := by
  induction m with
  | nil => simp at hm
  | cons p rest ih =>
    rcases List.pairwise_cons.mp h with ⟨hhead, htail⟩
    rw [mapGet]
    rcases List.mem_cons.mp hm with he | hm2
    · rw [← he]
      simp
    · by_cases hp : p.1 = k
      · exact absurd (hp ▸ rfl) (hhead (k, v) hm2)
      · rw [if_neg hp]
        exact ih htail hm2

/-- Under the date/key invariant, a looked-up row carries the key as its
date. -/
theorem datesMatch_get {m : List (String × ChartDataPoint)} {k : String} {r : ChartDataPoint}
    (h : DatesMatch m) (hg : mapGet m k = some r) : r.date = k := by
  induction m with
  | nil => simp [mapGet] at hg
  | cons p rest ih =>
    rw [mapGet] at hg
    by_cases hp : p.1 = k
    · rw [if_pos hp] at hg
      have : p.2 = r := by simpa using hg
      rw [← this, h p (List.mem_cons_self p rest), hp]
    · rw [if_neg hp] at hg
      exact ih (fun q hq => h q (List.mem_cons_of_mem p hq)) hg

/-- A point of a source pass touches the map key `d` when it passes the
truthiness guard and its normalized date is `d`. -/
def touchesB (d : String) (p : RawPoint) : Bool :=
  pointOk p && decide (normalizeDate (p.date.getD "") = d)

/-- A `genStep` with an untouched key leaves that key's lookup unchanged. -/
theorem genStep_get_not_touch (upd : String → RawPoint → Option ChartDataPoint → ChartDataPoint)
    (m : List (String × ChartDataPoint)) (item : RawPoint) (d : String)
    (h : touchesB d item = false) :
    mapGet (genStep upd m item) d = mapGet m d := by
  unfold genStep
  by_cases hok : pointOk item
  · rw [if_pos hok]
    have hne : normalizeDate (item.date.getD "") ≠ d := by
      intro he
      rw [touchesB, hok, he] at h
      simp at h
    exact mapGet_set_ne _ _ _ _ (Ne.symm hne)
  · rw [if_neg hok]

/-- A whole pass over points none of which touch `d` leaves `d`'s lookup
unchanged. -/
theorem foldl_genStep_get_not_touch (upd : String → RawPoint → Option ChartDataPoint → ChartDataPoint) :
    ∀ (pts : List RawPoint) (m : List (String × ChartDataPoint)) (d : String),
      (∀ it ∈ pts, touchesB d it = false) →
      mapGet (pts.foldl (genStep upd) m) d = mapGet m d
  | [], m, d, _ => rfl
  | a :: rest, m, d, h => by
    rw [List.foldl_cons,
      foldl_genStep_get_not_touch upd rest _ d (fun it hit => h it (List.mem_cons_of_mem a hit)),
      genStep_get_not_touch upd m a d (h a (List.mem_cons_self a rest))]

/-- A pass whose points touch `d` exactly once (at `pz`) stores at `d` the
update of whatever was there before the pass. -/
theorem foldl_genStep_get_single (upd : String → RawPoint → Option ChartDataPoint → ChartDataPoint) :
    ∀ (pts : List RawPoint) (m : List (String × ChartDataPoint)) (d : String) (pz : RawPoint),
      pts.filter (touchesB d) = [pz] →
      mapGet (pts.foldl (genStep upd) m) d = some (upd d pz (mapGet m d))
  | [], m, d, pz, h => by simp [List.filter] at h
  | a :: rest, m, d, pz, h => by
    rw [List.foldl_cons]
    by_cases ha : touchesB d a = true
    · rw [List.filter_cons_of_pos ha] at h
      obtain ⟨rfl, hrest⟩ : a = pz ∧ rest.filter (touchesB d) = [] := by
        constructor
        · exact (List.cons.injEq _ _ _ _ ▸ h).1
        · exact (List.cons.injEq _ _ _ _ ▸ h).2
      obtain ⟨hok, hkey⟩ : pointOk a = true ∧ normalizeDate (a.date.getD "") = d := by
        simpa [touchesB] using ha
      have hnone : ∀ it ∈ rest, touchesB d it = false := by
        intro it hit
        have := List.filter_eq_nil_iff.mp hrest it hit
        cases hb : touchesB d it
        · rfl
        · exact absurd hb this
      rw [foldl_genStep_get_not_touch upd rest _ d hnone]
      unfold genStep
      rw [if_pos hok, hkey]
      exact mapGet_set_self _ _ _
    · have ha2 : touchesB d a = false := by
        cases hb : touchesB d a
        · rfl
        · exact absurd hb ha
      rw [List.filter_cons_of_neg (by rw [ha2]; simp)] at h
      rw [foldl_genStep_get_single upd rest _ d pz h,
        genStep_get_not_touch upd m a d ha2]

/-- A `genStep` preserves distinctness of keys. -/
theorem genStep_keys (upd : String → RawPoint → Option ChartDataPoint → ChartDataPoint)
    (m : List (String × ChartDataPoint)) (item : RawPoint) (h : KeysDistinct m) :
    KeysDistinct (genStep upd m item) := by
  unfold genStep
  by_cases hok : pointOk item
  · rw [if_pos hok]
    exact keysDistinct_mapSet _ _ h
  · rw [if_neg hok]
    exact h

/-- A `genStep` preserves the date/key invariant when `upd` respects the
key (as the three passes do). -/
theorem genStep_dates (upd : String → RawPoint → Option ChartDataPoint → ChartDataPoint)
    (hupd : ∀ (d : String) (it : RawPoint) (ex : Option ChartDataPoint),
      (∀ r, ex = some r → r.date = d) → (upd d it ex).date = d)
    (m : List (String × ChartDataPoint)) (item : RawPoint) (h : DatesMatch m) :
    DatesMatch (genStep upd m item) := by
  unfold genStep
  by_cases hok : pointOk item
  · rw [if_pos hok]
    exact datesMatch_mapSet h (hupd _ _ _ (fun r hr => datesMatch_get h hr))
  · rw [if_neg hok]
    exact h

/-- A whole pass preserves distinctness of keys. -/
theorem foldl_genStep_keys (upd : String → RawPoint → Option ChartDataPoint → ChartDataPoint) :
    ∀ (pts : List RawPoint) (m : List (String × ChartDataPoint)),
      KeysDistinct m → KeysDistinct (pts.foldl (genStep upd) m)
  | [], _, h => h
  | a :: rest, m, h => by
    rw [List.foldl_cons]
    exact foldl_genStep_keys upd rest _ (genStep_keys upd m a h)

/-- A whole pass preserves the date/key invariant. -/
theorem foldl_genStep_dates (upd : String → RawPoint → Option ChartDataPoint → ChartDataPoint)
    (hupd : ∀ (d : String) (it : RawPoint) (ex : Option ChartDataPoint),
      (∀ r, ex = some r → r.date = d) → (upd d it ex).date = d) :
    ∀ (pts : List RawPoint) (m : List (String × ChartDataPoint)),
      DatesMatch m → DatesMatch (pts.foldl (genStep upd) m)
  | [], _, h => h
  | a :: rest, m, h => by
    rw [List.foldl_cons]
    exact foldl_genStep_dates upd hupd rest _ (genStep_dates upd hupd m a h)

/-- The copper pass respects the key. -/
theorem copperUpd_date (d : String) (it : RawPoint) (ex : Option ChartDataPoint)
    (_ : ∀ r, ex = some r → r.date = d) : (copperUpd d it ex).date = d := rfl

/-- The zinc pass respects the key. -/
theorem zincUpd_date (d : String) (it : RawPoint) (ex : Option ChartDataPoint)
    (h : ∀ r, ex = some r → r.date = d) : (zincUpd d it ex).date = d := by
  cases ex with
  | none => rfl
  | some r => exact h r rfl

/-- The oil pass respects the key. -/
theorem oilUpd_date (d : String) (it : RawPoint) (ex : Option ChartDataPoint)
    (h : ∀ r, ex = some r → r.date = d) : (oilUpd d it ex).date = d := by
  cases ex with
  | none => rfl
  | some r => exact h r rfl

/-- The populated date map has pairwise-distinct keys. -/
theorem buildMap_keysDistinct (copperData zincData oilData : List RawPoint) :
    KeysDistinct (buildMap copperData zincData oilData) := by
  unfold buildMap
  exact foldl_genStep_keys _ _ _ (foldl_genStep_keys _ _ _
    (foldl_genStep_keys _ _ _ (List.Pairwise.nil)))

/-- Every row of the populated date map carries its key as date. -/
theorem buildMap_datesMatch (copperData zincData oilData : List RawPoint) :
    DatesMatch (buildMap copperData zincData oilData) := by
  unfold buildMap
  exact foldl_genStep_dates _ oilUpd_date _ _ (foldl_genStep_dates _ zincUpd_date _ _
    (foldl_genStep_dates _ copperUpd_date _ _ (fun p hp => absurd hp (List.not_mem_nil p))))

/-- Reading back the field that `setField` wrote. -/
theorem fieldOf_setField_self (c : Commodity) (r : ChartDataPoint) (v : Option JsNum) :
    fieldOf c (setField c r v) = v := by
  cases c <;> rfl

/-- `setField` leaves the other commodities' fields unchanged. -/
theorem fieldOf_setField_ne (c c2 : Commodity) (h : c2 ≠ c) (r : ChartDataPoint) (v : Option JsNum) :
    fieldOf c2 (setField c r v) = fieldOf c2 r := by
  cases c <;> cases c2 <;> first | rfl | exact absurd rfl h

/-- When the canonical date `d` is touched by exactly one point `pz` of
exactly one source `c`, the populated map stores at `d` the fresh row with
only that commodity's field set to `parseFloat` of `pz`'s value. -/
theorem buildMap_single_source (c : Commodity) (copperData zincData oilData : List RawPoint)
    (d : String) (pz : RawPoint)
    (hcop : copperData.filter (touchesB d) = if c = .copper then [pz] else [])
    (hzin : zincData.filter (touchesB d) = if c = .zinc then [pz] else [])
    (hoil : oilData.filter (touchesB d) = if c = .oil then [pz] else []) :
    mapGet (buildMap copperData zincData oilData) d
      = some (setField c { date := d } (some (jsParseFloat (pz.value.getD "")))) := by
  have hnil : ∀ (pts : List RawPoint), pts.filter (touchesB d) = [] →
      ∀ it ∈ pts, touchesB d it = false := by
    intro pts hpts it hit
    have := List.filter_eq_nil_iff.mp hpts it hit
    cases hb : touchesB d it
    · rfl
    · exact absurd hb this
  unfold buildMap
  cases c with
  | copper =>
    simp only [if_pos rfl] at hcop
    rw [if_neg (by decide : ¬ Commodity.copper = Commodity.zinc)] at hzin
    rw [if_neg (by decide : ¬ Commodity.copper = Commodity.oil)] at hoil
    rw [foldl_genStep_get_not_touch _ _ _ _ (hnil _ hoil),
      foldl_genStep_get_not_touch _ _ _ _ (hnil _ hzin),
      foldl_genStep_get_single _ _ _ _ _ hcop]
    rfl
  | zinc =>
    rw [if_neg (by decide : ¬ Commodity.zinc = Commodity.copper)] at hcop
    simp only [if_pos rfl] at hzin
    rw [if_neg (by decide : ¬ Commodity.zinc = Commodity.oil)] at hoil
    rw [foldl_genStep_get_not_touch _ _ _ _ (hnil _ hoil),
      foldl_genStep_get_single _ _ _ _ _ hzin,
      foldl_genStep_get_not_touch _ _ _ _ (hnil _ hcop)]
    rfl
  | oil =>
    rw [if_neg (by decide : ¬ Commodity.oil = Commodity.copper)] at hcop
    rw [if_neg (by decide : ¬ Commodity.oil = Commodity.zinc)] at hzin
    simp only [if_pos rfl] at hoil
    rw [foldl_genStep_get_single _ _ _ _ _ hoil,
      foldl_genStep_get_not_touch _ _ _ _ (hnil _ hzin),
      foldl_genStep_get_not_touch _ _ _ _ (hnil _ hcop)]
    rfl

/-- Every row of the merged output is the map's stored row for its date. -/
theorem fetchFreshCombine_mem_row (copperData zincData oilData : List RawPoint)
    (row : ChartDataPoint) (h : row ∈ fetchFreshCombine copperData zincData oilData) :
    mapGet (buildMap copperData zincData oilData) row.date = some row := by
  unfold fetchFreshCombine at h
  rw [List.mem_mergeSort] at h
  have h2 := (List.mem_filter.mp h).1
  rcases List.mem_map.mp h2 with ⟨p, hp, he⟩
  have hd : p.2.date = p.1 := buildMap_datesMatch copperData zincData oilData p hp
  have hmem : (row.date, row) ∈ buildMap copperData zincData oilData := by
    obtain ⟨k, r⟩ := p
    simp only at he hd
    subst he
    rw [← hd] at hp
    exact hp
  exact mapGet_mem (buildMap_keysDistinct _ _ _) hmem

/-- C3: If a canonical date is touched by exactly one point of exactly one
source, and that point's value parses to a number, then any merged row for
that date has exactly that commodity field set to the parsed number and the
other two fields absent. -/
theorem merge_single_source (c : Commodity) (copperData zincData oilData : List RawPoint)
    (d : String) (pz : RawPoint) (q : ℚ)
    (hcop : copperData.filter (touchesB d) = if c = .copper then [pz] else [])
    (hzin : zincData.filter (touchesB d) = if c = .zinc then [pz] else [])
    (hoil : oilData.filter (touchesB d) = if c = .oil then [pz] else [])
    (hv : jsParseFloat (pz.value.getD "") = JsNum.val q) :
    ∀ row ∈ fetchFreshCombine copperData zincData oilData, row.date = d →
      fieldOf c row = some (JsNum.val q)
        ∧ ∀ c2 : Commodity, c2 ≠ c → fieldOf c2 row = none := by
  intro row hrow hdate
  have hget := fetchFreshCombine_mem_row copperData zincData oilData row hrow
  rw [hdate, buildMap_single_source c copperData zincData oilData d pz hcop hzin hoil] at hget
  have hrw : row = setField c { date := d } (some (jsParseFloat (pz.value.getD ""))) := by
    injection hget.symm
  rw [hrw, hv]
  refine ⟨fieldOf_setField_self c _ _, ?_⟩
  intro c2 hc2
  rw [fieldOf_setField_ne c c2 hc2]
  cases c2 <;> rfl

/-- Witness for C3: a single zinc point for 2026-02-01 with value `"50"`
yields a merged row with zinc 50 and copper/oil absent. -/
theorem merge_single_source_witness :
    fieldOf Commodity.zinc
        { date := "2026-02-01", zinc := some (JsNum.val 50) } = some (JsNum.val 50)
      ∧ fieldOf Commodity.copper
        { date := "2026-02-01", zinc := some (JsNum.val 50) } = none := by
  have happ := merge_single_source Commodity.zinc [] [{ date := some "2026-02-01", value := some "50" }] []
    "2026-02-01" { date := some "2026-02-01", value := some "50" } 50
    (by decide) (by decide) (by decide) (by decide)
    { date := "2026-02-01", zinc := some (JsNum.val 50) }
    (List.mem_mergeSort.mpr (by decide)) rfl
  exact ⟨happ.1, happ.2 Commodity.copper (by decide)⟩

/-- Counterexample for C2 as stated: the raw point `{date: "2023-05-05",
value: "abc"}` has a present, truthy value that does not parse as a number,
yet the merge does not skip it — the merged row's copper field is set to
`NaN`, not left absent. -/
theorem merge_nan_counterexample :
    truthyStr (some "abc") = true
    ∧ jsParseFloat "abc" = JsNum.nan
    ∧ fetchFreshCombine [{ date := some "2023-05-05", value := some "abc" }] [] []
        = [{ date := "2023-05-05", copper := some JsNum.nan }]
    ∧ some JsNum.nan ≠ (none : Option JsNum) := by
  refine ⟨by decide, by decide, ?_, by simp⟩
  have h1 : (((buildMap [{ date := some "2023-05-05", value := some "abc" }] [] []).map
      Prod.snd).filter inSeriesRange)
      = [{ date := "2023-05-05", copper := some JsNum.nan }] := by decide
  unfold fetchFreshCombine
  rw [h1]
  exact List.mergeSort_singleton _

/-- C2 (amended): points with a missing or falsy date/value are skipped,
but a point whose value is present and truthy yet unparseable is *not*
skipped — its commodity field is set to `NaN` on the row for its date, and
the merge completes (it is a total function). -/
theorem merge_unparseable_sets_nan (c : Commodity) (copperData zincData oilData : List RawPoint)
    (d : String) (pz : RawPoint)
    (hcop : copperData.filter (touchesB d) = if c = .copper then [pz] else [])
    (hzin : zincData.filter (touchesB d) = if c = .zinc then [pz] else [])
    (hoil : oilData.filter (touchesB d) = if c = .oil then [pz] else [])
    (hnan : jsParseFloat (pz.value.getD "") = JsNum.nan) :
    ∀ row ∈ fetchFreshCombine copperData zincData oilData, row.date = d →
      fieldOf c row = some JsNum.nan := by
  intro row hrow hdate
  have hget := fetchFreshCombine_mem_row copperData zincData oilData row hrow
  rw [hdate, buildMap_single_source c copperData zincData oilData d pz hcop hzin hoil] at hget
  have hrw : row = setField c { date := d } (some (jsParseFloat (pz.value.getD ""))) := by
    injection hget.symm
  rw [hrw, hnan]
  exact fieldOf_setField_self c _ _

/-- Witness for C2 (amended) at the concrete unparseable input. -/
theorem merge_unparseable_sets_nan_witness :
    fieldOf Commodity.copper { date := "2023-05-05", copper := some JsNum.nan }
      = some JsNum.nan :=
  merge_unparseable_sets_nan Commodity.copper
    [{ date := some "2023-05-05", value := some "abc" }] [] []
    "2023-05-05" { date := some "2023-05-05", value := some "abc" }
    (by decide) (by decide) (by decide) (by decide)
    { date := "2023-05-05", copper := some JsNum.nan }
    (List.mem_mergeSort.mpr (by decide)) rfl

/-- The sort comparator is transitive. -/
theorem dateLe_trans (a b c : ChartDataPoint)
    (h1 : dateLe a b = true) (h2 : dateLe b c = true) : dateLe a c = true := by
  simp only [dateLe, decide_eq_true_eq] at h1 h2 ⊢
  omega

/-- The sort comparator is total. -/
theorem dateLe_total (a b : ChartDataPoint) : (dateLe a b || dateLe b a) = true := by
  simp only [dateLe, Bool.or_eq_true, decide_eq_true_eq]
  omega

/-- C1 (amended): For any three input point sequences, the merged table's
rows have pairwise-distinct date strings, are sorted ascending by parsed
date value — non-strictly, since distinct date strings can denote the same
instant — and every row's date parses to a valid instant on or after
2023-01-01. -/
theorem fetchFreshCombine_ordered (copperData zincData oilData : List RawPoint) :
    ((fetchFreshCombine copperData zincData oilData).Pairwise (fun a b => a.date ≠ b.date))
    ∧ ((fetchFreshCombine copperData zincData oilData).Pairwise (fun a b =>
        ∃ na nb : ℤ, jsDateValue a.date = some na ∧ jsDateValue b.date = some nb ∧ na ≤ nb))
    ∧ (∀ r ∈ fetchFreshCombine copperData zincData oilData,
        ∃ n bd : ℤ, jsDateValue r.date = some n ∧ jsDateValue "2023-01-01" = some bd ∧ bd ≤ n) := by
  have hvalid : ∀ r ∈ fetchFreshCombine copperData zincData oilData,
      ∃ n bd : ℤ, jsDateValue r.date = some n ∧ jsDateValue "2023-01-01" = some bd ∧ bd ≤ n := by
    intro r hr
    have hrL : r ∈ ((buildMap copperData zincData oilData).map Prod.snd).filter inSeriesRange :=
      List.mem_mergeSort.mp hr
    have hc := (List.mem_filter.mp hrL).2
    unfold inSeriesRange at hc
    rw [show jsDateValue "2023-01-01" = some 1672531200000 from by decide] at hc
    cases hv : jsDateValue r.date with
    | none => rw [hv] at hc; simp at hc
    | some a =>
      rw [hv] at hc
      simp only [decide_eq_true_eq] at hc
      exact ⟨a, 1672531200000, rfl, by decide, hc⟩
  have hdistinct : (fetchFreshCombine copperData zincData oilData).Pairwise
      (fun a b => a.date ≠ b.date) := by
    have hdL : (((buildMap copperData zincData oilData).map Prod.snd).filter
        inSeriesRange).Pairwise (fun a b => a.date ≠ b.date) := by
      apply List.Pairwise.filter
      rw [List.pairwise_map]
      refine (buildMap_keysDistinct copperData zincData oilData).imp_of_mem ?_
      intro p q hp hq hne
      have hdp := buildMap_datesMatch copperData zincData oilData p hp
      have hdq := buildMap_datesMatch copperData zincData oilData q hq
      rw [hdp, hdq]
      exact hne
    exact (List.Perm.pairwise_iff (fun h => h.symm)
      (List.mergeSort_perm _ dateLe)).mpr hdL
  have hsorted : (fetchFreshCombine copperData zincData oilData).Pairwise
      (fun a b => dateLe a b = true) :=
    List.sorted_mergeSort (fun a b c => dateLe_trans a b c) dateLe_total _
  refine ⟨hdistinct, ?_, hvalid⟩
  refine hsorted.imp_of_mem ?_
  intro a b ha hb hR
  obtain ⟨na, _, hna, _, _⟩ := hvalid a ha
  obtain ⟨nb, _, hnb, _, _⟩ := hvalid b hb
  refine ⟨na, nb, hna, hnb, ?_⟩
  simp only [dateLe, hna, hnb, Option.getD_some, decide_eq_true_eq] at hR
  exact hR

/-- Witness for C1 (amended) at a concrete input: one copper point in
`DD/MM/YYYY` form, one zinc point on a different date, no oil points. -/
theorem fetchFreshCombine_ordered_witness :
    ((fetchFreshCombine [{ date := some "02/01/2023", value := some "8500" }]
        [{ date := some "2023-01-03", value := some "3000" }] []).Pairwise
      (fun a b => a.date ≠ b.date))
    ∧ ((fetchFreshCombine [{ date := some "02/01/2023", value := some "8500" }]
        [{ date := some "2023-01-03", value := some "3000" }] []).Pairwise (fun a b =>
        ∃ na nb : ℤ, jsDateValue a.date = some na ∧ jsDateValue b.date = some nb ∧ na ≤ nb))
    ∧ (∀ r ∈ fetchFreshCombine [{ date := some "02/01/2023", value := some "8500" }]
        [{ date := some "2023-01-03", value := some "3000" }] [],
        ∃ n bd : ℤ, jsDateValue r.date = some n ∧ jsDateValue "2023-01-01" = some bd ∧ bd ≤ n) :=
  fetchFreshCombine_ordered _ _ _

/-- Counterexample for C1 as stated: ECMA-262 mandates that
`"2023-01-05T00:00:00.000Z"` parse to the same instant as `"2023-01-05"`,
and both pass the series-range filter.  Feeding the merge a copper point
with the date-only string and a zinc point with the date-time string yields
two distinct rows with equal date values, so the output is not strictly
ascending by date. -/
theorem fetchFreshCombine_strict_counterexample :
    jsDateValue "2023-01-05T00:00:00.000Z" = jsDateValue "2023-01-05"
    ∧ ("2023-01-05" : String) ≠ "2023-01-05T00:00:00.000Z"
    ∧ ¬ ((fetchFreshCombine [{ date := some "2023-01-05", value := some "1" }]
          [{ date := some "2023-01-05T00:00:00.000Z", value := some "2" }] []).Pairwise
        (fun a b => ∃ na nb : ℤ,
          jsDateValue a.date = some na ∧ jsDateValue b.date = some nb ∧ na < nb)) := by
  refine ⟨by decide, by decide, ?_⟩
  intro hpair
  have h1 : ({ date := "2023-01-05", copper := some (JsNum.val 1) } : ChartDataPoint)
      ∈ fetchFreshCombine [{ date := some "2023-01-05", value := some "1" }]
        [{ date := some "2023-01-05T00:00:00.000Z", value := some "2" }] [] :=
    List.mem_mergeSort.mpr (by decide)
  have h2 : ({ date := "2023-01-05T00:00:00.000Z", zinc := some (JsNum.val 2) } : ChartDataPoint)
      ∈ fetchFreshCombine [{ date := some "2023-01-05", value := some "1" }]
        [{ date := some "2023-01-05T00:00:00.000Z", value := some "2" }] [] :=
    List.mem_mergeSort.mpr (by decide)
  have hne : ({ date := "2023-01-05", copper := some (JsNum.val 1) } : ChartDataPoint)
      ≠ { date := "2023-01-05T00:00:00.000Z", zinc := some (JsNum.val 2) } := by decide
  have hsym : (fetchFreshCombine [{ date := some "2023-01-05", value := some "1" }]
      [{ date := some "2023-01-05T00:00:00.000Z", value := some "2" }] []).Pairwise (fun a b =>
        (∃ na nb : ℤ, jsDateValue a.date = some na ∧ jsDateValue b.date = some nb ∧ na < nb)
        ∨ (∃ na nb : ℤ, jsDateValue b.date = some na ∧ jsDateValue a.date = some nb ∧ na < nb)) :=
    hpair.imp (fun h => Or.inl h)
  have hor := List.Pairwise.forall (fun {x y} h => Or.symm h) hsym h1 h2 hne
  have hv1 : jsDateValue "2023-01-05" = some 1672876800000 := by decide
  have hv2 : jsDateValue "2023-01-05T00:00:00.000Z" = some 1672876800000 := by decide
  rcases hor with ⟨na, nb, ha, hb, hlt⟩ | ⟨na, nb, ha, hb, hlt⟩
  · rw [show ({ date := "2023-01-05", copper := some (JsNum.val 1) } : ChartDataPoint).date
        = "2023-01-05" from rfl, hv1] at ha
    rw [show ({ date := "2023-01-05T00:00:00.000Z", zinc := some (JsNum.val 2) } : ChartDataPoint).date
        = "2023-01-05T00:00:00.000Z" from rfl, hv2] at hb
    have hna := Option.some.inj ha
    have hnb := Option.some.inj hb
    omega
  · rw [show ({ date := "2023-01-05T00:00:00.000Z", zinc := some (JsNum.val 2) } : ChartDataPoint).date
        = "2023-01-05T00:00:00.000Z" from rfl, hv2] at ha
    rw [show ({ date := "2023-01-05", copper := some (JsNum.val 1) } : ChartDataPoint).date
        = "2023-01-05" from rfl, hv1] at hb
    have hna := Option.some.inj ha
    have hnb := Option.some.inj hb
    omega

/-- The update test as a predicate on fresh rows, given the previous-table
map: the date is present in the previous table and some field differs. -/
def updPred (m : List (String × ChartDataPoint)) (d : ChartDataPoint) : Bool :=
  match mapGet m d.date with
  | some p => rowChanged p d
  | none => false

/-- One update-scan step, rephrased through `updPred`. -/
theorem updateStep_eq (m : List (String × ChartDataPoint)) (acc : ℕ × List String)
    (d : ChartDataPoint) :
    updateStep m acc d =
      if updPred m d = true then
        (acc.1 + 1, if acc.1 + 1 ≤ 3 then acc.2 ++ [updDetailLine d] else acc.2)
      else acc := by
  unfold updateStep updPred
  cases mapGet m d.date with
  | none => simp
  | some p =>
    by_cases h : rowChanged p d = true
    · simp [h]
    · have h2 : rowChanged p d = false := by
        cases hb : rowChanged p d
        · rfl
        · exact absurd hb h
      simp [h2]

/-- The update scan counts exactly the rows satisfying `updPred`, and its
log keeps `min count 3` lines. -/
theorem updateScan_spec (m : List (String × ChartDataPoint)) :
    ∀ (rows : List ChartDataPoint) (c : ℕ) (log : List String), log.length = min c 3 →
      (rows.foldl (updateStep m) (c, log)).1 = c + (rows.filter (updPred m)).length
      ∧ (rows.foldl (updateStep m) (c, log)).2.length
          = min (rows.foldl (updateStep m) (c, log)).1 3
  | [], c, log, hlog => by
    constructor
    · simp
    · simpa using hlog
  | d :: rest, c, log, hlog => by
    rw [List.foldl_cons, updateStep_eq]
    by_cases hd : updPred m d = true
    · rw [if_pos hd, List.filter_cons_of_pos hd]
      have hlog2 : (if c + 1 ≤ 3 then log ++ [updDetailLine d] else log).length = min (c + 1) 3 := by
        by_cases hc : c + 1 ≤ 3
        · rw [if_pos hc]
          simp only [List.length_append, List.length_cons, List.length_nil]
          omega
        · rw [if_neg hc]
          omega
      obtain ⟨ih1, ih2⟩ := updateScan_spec m rest (c + 1) _ hlog2
      refine ⟨?_, ih2⟩
      rw [ih1]
      simp only [List.length_cons]
      omega
    · rw [if_neg hd]
      have hd2 : updPred m d = false := by
        cases hb : updPred m d
        · rfl
        · exact absurd hb hd
      rw [List.filter_cons_of_neg (by rw [hd2]; simp)]
      exact updateScan_spec m rest c log hlog

/-- Lookup in the previous-table map built from a start state whose keys
avoid the table's dates: it is `find?` over the table, falling back to the
start state. -/
theorem mapGet_buildPrevMap_aux :
    ∀ (prev : List ChartDataPoint) (m0 : List (String × ChartDataPoint)) (k : String),
      (∀ p ∈ prev, mapGet m0 p.date = none) →
      prev.Pairwise (fun a b => a.date ≠ b.date) →
      mapGet (prev.foldl (fun m d => mapSet m d.date d) m0) k
        = match prev.find? (fun p => p.date == k) with
          | some p => some p
          | none => mapGet m0 k
  | [], m0, k, _, _ => by simp [List.find?]
  | d :: rest, m0, k, h0, hp => by
    rcases List.pairwise_cons.mp hp with ⟨hhead, htail⟩
    rw [List.foldl_cons]
    have h0' : ∀ p ∈ rest, mapGet (mapSet m0 d.date d) p.date = none := by
      intro p hp2
      rw [mapGet_set_ne _ _ _ _ (Ne.symm (hhead p hp2))]
      exact h0 p (List.mem_cons_of_mem d hp2)
    rw [mapGet_buildPrevMap_aux rest (mapSet m0 d.date d) k h0' htail]
    by_cases hk : d.date = k
    · have hfr : rest.find? (fun p => p.date == k) = none := by
        rw [List.find?_eq_none]
        intro p hp2
        simp only [beq_iff_eq]
        rw [← hk]
        exact fun he => hhead p hp2 he.symm
      rw [hfr, List.find?_cons_of_pos _ (by simpa using hk), ← hk, mapGet_set_self]
    · rw [List.find?_cons_of_neg _ (by simpa using hk)]
      cases rest.find? (fun p => p.date == k) with
      | some p => rfl
      | none => exact mapGet_set_ne _ _ _ _ (fun he => hk he.symm)

/-- With distinct dates, lookup in the previous-table map is `find?` by
date. -/
theorem mapGet_buildPrevMap (prev : List ChartDataPoint)
    (hp : prev.Pairwise (fun a b => a.date ≠ b.date)) (k : String) :
    mapGet (buildPrevMap prev) k = prev.find? (fun p => p.date == k) := by
  rw [buildPrevMap, mapGet_buildPrevMap_aux prev [] k (fun p _ => rfl) hp]
  cases prev.find? (fun p => p.date == k) with
  | some p => rfl
  | none => rfl

/-- On a previous table with distinct dates, the update test holds exactly
when some previous row shares the date and differs in a field. -/
theorem updPred_iff (prev : List ChartDataPoint)
    (hp : prev.Pairwise (fun a b => a.date ≠ b.date)) (d : ChartDataPoint) :
    updPred (buildPrevMap prev) d
      = decide (∃ p ∈ prev, p.date = d.date ∧ rowChanged p d = true) := by
  unfold updPred
  rw [mapGet_buildPrevMap prev hp d.date]
  cases hf : prev.find? (fun p => p.date == d.date) with
  | none =>
    have hno := List.find?_eq_none.mp hf
    symm
    rw [decide_eq_false_iff_not]
    rintro ⟨p, hp2, hd2, _⟩
    exact hno p hp2 (by simpa using hd2)
  | some p =>
    have hpmem := List.mem_of_find?_eq_some hf
    have hpd : p.date = d.date := by simpa using List.find?_some hf
    show rowChanged p d = decide (∃ q ∈ prev, q.date = d.date ∧ rowChanged q d = true)
    by_cases hch : rowChanged p d = true
    · rw [hch]
      symm
      rw [decide_eq_true_eq]
      exact ⟨p, hpmem, hpd, hch⟩
    · have hch2 : rowChanged p d = false := by
        cases hb : rowChanged p d
        · rfl
        · exact absurd hb hch
      rw [hch2]
      symm
      rw [decide_eq_false_iff_not]
      rintro ⟨p2, hp2, hd2, hch3⟩
      have hpe : p2 = p := by
        by_contra hne
        exact List.Pairwise.forall (fun {x y} h => Ne.symm h) hp hp2 hpmem hne
          (hd2.trans hpd.symm)
      exact hch (hpe ▸ hch3)

/-- C8: With tables of distinct dates (the aligned-table invariant), the
detector counts as additions exactly the fresh rows whose date is absent
from the previous table, and as updates exactly the dates present in both
tables with at least one differing field; the two concrete claim scenarios
come out as (1 addition, 0 updates) and (0 additions, 1 update). -/
theorem detectChanges_counts (prevData newData : List ChartDataPoint)
    (hp : prevData.Pairwise (fun a b => a.date ≠ b.date))
    (_hn : newData.Pairwise (fun a b => a.date ≠ b.date)) :
    (detectChanges prevData newData).2.1
        = (newData.filter (fun d => decide (∀ p ∈ prevData, p.date ≠ d.date))).length
    ∧ (detectChanges prevData newData).2.2
        = (newData.filter (fun d =>
            decide (∃ p ∈ prevData, p.date = d.date ∧ rowChanged p d = true))).length
    ∧ ((detectChanges [{ date := "2026-02-01", copper := some (JsNum.val 100) }]
        [{ date := "2026-02-01", copper := some (JsNum.val 100) },
         { date := "2026-02-02", copper := some (JsNum.val 101) }]).2 = (1, 0)
      ∧ (detectChanges [{ date := "2026-02-01", copper := some (JsNum.val 100) }]
        [{ date := "2026-02-01", copper := some (JsNum.val 105) }]).2 = (0, 1)) := by
  refine ⟨?_, ?_, by decide, by decide⟩
  · have h21 : (detectChanges prevData newData).2.1
        = (detectNewEntries prevData newData).length := rfl
    rw [h21, detectNewEntries]
    congr 1
    apply List.filter_congr
    intro d _
    rw [Bool.eq_iff_iff]
    simp [List.any_eq_true]
  · have h22 : (detectChanges prevData newData).2.2
        = ((newData.reverse).foldl (updateStep (buildPrevMap prevData)) (0, [])).1 := rfl
    rw [h22, (updateScan_spec (buildPrevMap prevData) newData.reverse 0 [] rfl).1,
      List.filter_reverse, List.length_reverse, Nat.zero_add]
    congr 1
    apply List.filter_congr
    intro d _
    exact updPred_iff prevData hp d

/-- Witness for C8: the two concrete scenarios, extracted through the
theorem with the distinctness hypotheses discharged. -/
theorem detectChanges_counts_witness :
    (detectChanges [{ date := "2026-02-01", copper := some (JsNum.val 100) }]
      [{ date := "2026-02-01", copper := some (JsNum.val 100) },
       { date := "2026-02-02", copper := some (JsNum.val 101) }]).2 = (1, 0)
    ∧ (detectChanges [{ date := "2026-02-01", copper := some (JsNum.val 100) }]
      [{ date := "2026-02-01", copper := some (JsNum.val 105) }]).2 = (0, 1) :=
  (detectChanges_counts [] [] List.Pairwise.nil List.Pairwise.nil).2.2

/-- Character data of an appended string. -/
theorem strData_append (s t : String) : (s ++ t).data = s.data ++ t.data := rfl

/-- C9 (amended): The detector's detail lines are exactly: the addition
block (header, up to 3 details, truncation note when more than 3 additions)
followed by the update block (header, up to 3 details in reverse scan
order, truncation note when more than 3 updates), each block empty when its
count is zero; the lines are empty iff there are no additions and no
updates.  The summary persisted alongside is
`"Data Update: X new, Y updated"`. -/
theorem detectChanges_structure (prevData newData : List ChartDataPoint) :
    ∃ addDetails updDetails : List String,
      addDetails.length = min (detectChanges prevData newData).2.1 3
      ∧ updDetails.length = min (detectChanges prevData newData).2.2 3
      ∧ (detectChanges prevData newData).1 =
          (if (detectChanges prevData newData).2.1 = 0 then []
            else addedHeader (detectChanges prevData newData).2.1 ::
              (addDetails ++ (if 3 < (detectChanges prevData newData).2.1 then
                [moreNote ((detectChanges prevData newData).2.1 - 3)] else [])))
          ++ (if (detectChanges prevData newData).2.2 = 0 then []
            else updatedHeader (detectChanges prevData newData).2.2 ::
              (updDetails ++ (if 3 < (detectChanges prevData newData).2.2 then
                [moreUpdatesNote ((detectChanges prevData newData).2.2 - 3)] else [])))
      ∧ ((detectChanges prevData newData).1 = []
          ↔ (detectChanges prevData newData).2.1 = 0 ∧ (detectChanges prevData newData).2.2 = 0)
      ∧ changeSummary (detectChanges prevData newData).2.1 (detectChanges prevData newData).2.2
          = "Data Update: " ++ toString (detectChanges prevData newData).2.1 ++ " new, "
            ++ toString (detectChanges prevData newData).2.2 ++ " updated" := by
  have h1 : (detectChanges prevData newData).2.1 = (detectNewEntries prevData newData).length := rfl
  have h2 : (detectChanges prevData newData).2.2
      = ((newData.reverse).foldl (updateStep (buildPrevMap prevData)) (0, [])).1 := rfl
  refine ⟨((detectNewEntries prevData newData).take 3).map newDetailLine,
    ((newData.reverse).foldl (updateStep (buildPrevMap prevData)) (0, [])).2, ?_, ?_, ?_, ?_, rfl⟩
  · rw [h1, List.length_map, List.length_take, Nat.min_comm]
  · rw [h2]
    exact (updateScan_spec (buildPrevMap prevData) newData.reverse 0 [] rfl).2
  · have hlines : (detectChanges prevData newData).1 =
        (if 0 < (detectNewEntries prevData newData).length then
          addedHeader (detectNewEntries prevData newData).length ::
            (((detectNewEntries prevData newData).take 3).map newDetailLine
              ++ (if 3 < (detectNewEntries prevData newData).length then
                [moreNote ((detectNewEntries prevData newData).length - 3)] else []))
          else [])
        ++ (if 0 < ((newData.reverse).foldl (updateStep (buildPrevMap prevData)) (0, [])).1 then
            updatedHeader ((newData.reverse).foldl (updateStep (buildPrevMap prevData)) (0, [])).1 ::
              (((newData.reverse).foldl (updateStep (buildPrevMap prevData)) (0, [])).2
                ++ (if 3 < ((newData.reverse).foldl (updateStep (buildPrevMap prevData)) (0, [])).1 then
                  [moreUpdatesNote (((newData.reverse).foldl (updateStep (buildPrevMap prevData)) (0, [])).1 - 3)]
                  else []))
            else []) := rfl
    rw [hlines, h1, h2]
    congr 1
    · by_cases hz : (detectNewEntries prevData newData).length = 0
      · rw [hz]
        rfl
      · rw [if_pos (Nat.pos_of_ne_zero hz), if_neg hz]
    · by_cases hz : ((newData.reverse).foldl (updateStep (buildPrevMap prevData)) (0, [])).1 = 0
      · rw [hz]
        rfl
      · rw [if_pos (Nat.pos_of_ne_zero hz), if_neg hz]
  · constructor
    · intro he
      by_contra hcon
      rw [not_and_or] at hcon
      have hlines : (detectChanges prevData newData).1 =
          (if 0 < (detectNewEntries prevData newData).length then
            addedHeader (detectNewEntries prevData newData).length ::
              (((detectNewEntries prevData newData).take 3).map newDetailLine
                ++ (if 3 < (detectNewEntries prevData newData).length then
                  [moreNote ((detectNewEntries prevData newData).length - 3)] else []))
            else [])
          ++ (if 0 < ((newData.reverse).foldl (updateStep (buildPrevMap prevData)) (0, [])).1 then
              updatedHeader ((newData.reverse).foldl (updateStep (buildPrevMap prevData)) (0, [])).1 ::
                (((newData.reverse).foldl (updateStep (buildPrevMap prevData)) (0, [])).2
                  ++ (if 3 < ((newData.reverse).foldl (updateStep (buildPrevMap prevData)) (0, [])).1 then
                    [moreUpdatesNote (((newData.reverse).foldl (updateStep (buildPrevMap prevData)) (0, [])).1 - 3)]
                    else []))
              else []) := rfl
      rw [hlines] at he
      rcases hcon with hcon | hcon
      · rw [h1] at hcon
        rw [if_pos (Nat.pos_of_ne_zero hcon)] at he
        simp at he
      · rw [h2] at hcon
        rw [if_pos (Nat.pos_of_ne_zero hcon)] at he
        rcases List.append_eq_nil.mp he with ⟨_, he2⟩
        simp at he2
    · rintro ⟨hz1, hz2⟩
      have hlines : (detectChanges prevData newData).1 =
          (if 0 < (detectNewEntries prevData newData).length then
            addedHeader (detectNewEntries prevData newData).length ::
              (((detectNewEntries prevData newData).take 3).map newDetailLine
                ++ (if 3 < (detectNewEntries prevData newData).length then
                  [moreNote ((detectNewEntries prevData newData).length - 3)] else []))
            else [])
          ++ (if 0 < ((newData.reverse).foldl (updateStep (buildPrevMap prevData)) (0, [])).1 then
              updatedHeader ((newData.reverse).foldl (updateStep (buildPrevMap prevData)) (0, [])).1 ::
                (((newData.reverse).foldl (updateStep (buildPrevMap prevData)) (0, [])).2
                  ++ (if 3 < ((newData.reverse).foldl (updateStep (buildPrevMap prevData)) (0, [])).1 then
                    [moreUpdatesNote (((newData.reverse).foldl (updateStep (buildPrevMap prevData)) (0, [])).1 - 3)]
                    else []))
              else []) := rfl
      rw [h1] at hz1
      rw [h2] at hz2
      rw [hlines, hz1, hz2]
      rfl

/-- Witness for C9 (amended) at a concrete input: one fresh row against an
empty previous table. -/
theorem detectChanges_structure_witness :
    ∃ addDetails updDetails : List String,
      addDetails.length
          = min (detectChanges [] [{ date := "2026-02-04", copper := some (JsNum.val 100) }]).2.1 3
      ∧ updDetails.length
          = min (detectChanges [] [{ date := "2026-02-04", copper := some (JsNum.val 100) }]).2.2 3
      ∧ (detectChanges [] [{ date := "2026-02-04", copper := some (JsNum.val 100) }]).1 =
          (if (detectChanges [] [{ date := "2026-02-04", copper := some (JsNum.val 100) }]).2.1 = 0 then []
            else addedHeader (detectChanges [] [{ date := "2026-02-04", copper := some (JsNum.val 100) }]).2.1 ::
              (addDetails ++ (if 3 < (detectChanges [] [{ date := "2026-02-04", copper := some (JsNum.val 100) }]).2.1 then
                [moreNote ((detectChanges [] [{ date := "2026-02-04", copper := some (JsNum.val 100) }]).2.1 - 3)] else [])))
          ++ (if (detectChanges [] [{ date := "2026-02-04", copper := some (JsNum.val 100) }]).2.2 = 0 then []
            else updatedHeader (detectChanges [] [{ date := "2026-02-04", copper := some (JsNum.val 100) }]).2.2 ::
              (updDetails ++ (if 3 < (detectChanges [] [{ date := "2026-02-04", copper := some (JsNum.val 100) }]).2.2 then
                [moreUpdatesNote ((detectChanges [] [{ date := "2026-02-04", copper := some (JsNum.val 100) }]).2.2 - 3)] else [])))
      ∧ ((detectChanges [] [{ date := "2026-02-04", copper := some (JsNum.val 100) }]).1 = []
          ↔ (detectChanges [] [{ date := "2026-02-04", copper := some (JsNum.val 100) }]).2.1 = 0
            ∧ (detectChanges [] [{ date := "2026-02-04", copper := some (JsNum.val 100) }]).2.2 = 0)
      ∧ changeSummary (detectChanges [] [{ date := "2026-02-04", copper := some (JsNum.val 100) }]).2.1
          (detectChanges [] [{ date := "2026-02-04", copper := some (JsNum.val 100) }]).2.2
          = "Data Update: "
            ++ toString (detectChanges [] [{ date := "2026-02-04", copper := some (JsNum.val 100) }]).2.1
            ++ " new, "
            ++ toString (detectChanges [] [{ date := "2026-02-04", copper := some (JsNum.val 100) }]).2.2
            ++ " updated" :=
  detectChanges_structure [] [{ date := "2026-02-04", copper := some (JsNum.val 100) }]

/-- Counterexample for C9 as stated: on one added row the persisted summary
is `"Data Update: 1 new, 0 updated"`, which is not of the claimed form
`"Added X new, Y updated"` for any counts X and Y (it starts with `D`, the
claimed form with `A`). -/
theorem changeSummary_counterexample :
    (detectChanges [] [{ date := "2026-02-04", copper := some (JsNum.val 100) }]).2 = (1, 0)
    ∧ ¬ ∃ x y : ℕ,
        changeSummary (detectChanges [] [{ date := "2026-02-04", copper := some (JsNum.val 100) }]).2.1
          (detectChanges [] [{ date := "2026-02-04", copper := some (JsNum.val 100) }]).2.2
          = "Added " ++ toString x ++ " new, " ++ toString y ++ " updated" := by
  refine ⟨by decide, ?_⟩
  rintro ⟨x, y, h⟩
  have hsum : changeSummary (detectChanges [] [{ date := "2026-02-04", copper := some (JsNum.val 100) }]).2.1
      (detectChanges [] [{ date := "2026-02-04", copper := some (JsNum.val 100) }]).2.2
      = "Data Update: 1 new, 0 updated" := by decide
  rw [hsum] at h
  have hd := congrArg String.data h
  rw [strData_append, strData_append, strData_append, strData_append] at hd
  simp at hd
